import Mathlib

/-!
Shallow embedding of the AppBundle operator reconciliation engine
(`internal/controller/appbundle_controller.go` and the API types in
`api/v1alpha1`).  The controller is embedded as pure state-passing
functions over an explicit cluster state; client calls (Get / Create /
Update / Status().Update) are recorded in an event trace, and a fault
oracle lets every error branch of the source stay reachable.
-/

namespace AppBundleOp

/-- The finalizer token constant `appBundleFinalizer` (controller line 41). -/
def appBundleFinalizer : String := "app.example.com/finalizer"

/-- The Argo CD sync-wave annotation key constant (controller line 43). -/
def argoSyncWaveKey : String := "argocd.argoproj.io/sync-wave"

/-- The apiVersion the scheme resolves for an `AppBundle` owner
(`api/v1alpha1`, group `app.example.com`, version `v1alpha1`). -/
def appBundleApiVersion : String := "app.example.com/v1alpha1"

/-- `DeploymentPhase` is a string type in Go (`api/v1alpha1`); the phase
constants below mirror `PhasePending` .. `PhaseFailed`. -/
def phasePending : String := "Pending"

/-- `PhaseDeploying` constant. -/
def phaseDeploying : String := "Deploying"

/-- `PhaseDeployed` constant. -/
def phaseDeployed : String := "Deployed"

/-- `PhaseFailed` constant. -/
def phaseFailed : String := "Failed"

/-- One entry of `metadata.ownerReferences` on an unstructured object;
only the fields `controllerutil.SetControllerReference` reads/writes. -/
structure OwnerRef where
  apiVersion : String
  kind : String
  name : String
  controller : Bool
deriving DecidableEq

/-- The slice of an `unstructured.Unstructured` object that the
controller reads or writes: group-version-kind, namespace/name,
annotations, labels, resourceVersion, ownerReferences.  Annotation and
label maps are association lists. -/
structure Manifest where
  apiVersion : String
  kind : String
  name : String
  ns : String
  annotations : List (String × String)
  labels : List (String × String)
  resourceVersion : String
  ownerRefs : List OwnerRef
deriving DecidableEq

/-- Map-style insert for the annotation/label association lists
(semantics of a Go `map[string]string` store: replace the entry for the
key when present, append otherwise). -/
def setKV : List (String × String) → String → String → List (String × String)
  | [], k, v => [(k, v)]
  | p :: rest, k, v => if p.1 = k then (k, v) :: rest else p :: setKV rest k v

/-- `PorchPackageReference` (api/v1alpha1). -/
structure PorchPackageReference where
  name : String
  ns : String
  revision : String
deriving DecidableEq

deriving instance DecidableEq for Except

/-- `Component` (api/v1alpha1).  `Template` is a `runtime.RawExtension`
holding raw JSON; the `json.Unmarshal` at controller line 208 is embedded
by carrying the parse outcome: `.ok m` when the raw bytes deserialize to
the manifest `m`, `.error e` when they do not. -/
structure Component where
  name : String
  order : Int
  template : Except String Manifest
  porchPackageRef : Option PorchPackageReference
deriving DecidableEq

/-- `Group` (api/v1alpha1). -/
structure Group where
  name : String
  order : Int
  components : List Component
deriving DecidableEq

/-- `PorchIntegrationSpec` (api/v1alpha1). -/
structure PorchIntegrationSpec where
  enabled : Bool
  repository : String
deriving DecidableEq

/-- `AppBundleSpec` (api/v1alpha1). -/
structure AppBundleSpec where
  groups : List Group
  porchIntegration : Option PorchIntegrationSpec
deriving DecidableEq

/-- `ResourceReference` (api/v1alpha1). -/
structure ResourceReference where
  apiVersion : String
  kind : String
  name : String
  ns : String
deriving DecidableEq

/-- `ComponentStatus` (api/v1alpha1). -/
structure ComponentStatus where
  name : String
  phase : String
  message : String
  resourceRef : Option ResourceReference
deriving DecidableEq

/-- `GroupStatus` (api/v1alpha1). -/
structure GroupStatus where
  name : String
  phase : String
  message : String
  componentStatuses : List ComponentStatus
deriving DecidableEq

/-- A `metav1.Condition` without its timestamp field (the controller
never reads timestamps); `status` is `true` for `ConditionTrue`. -/
structure Condition where
  condType : String
  status : Bool
  reason : String
  message : String
  observedGeneration : Int
deriving DecidableEq

/-- `meta.SetStatusCondition`: upsert by condition type (apimachinery
semantics restricted to the timestamp-free fields carried here). -/
def setStatusCondition : List Condition → Condition → List Condition
  | [], c => [c]
  | x :: rest, c =>
    if x.condType = c.condType then c :: rest else x :: setStatusCondition rest c

/-- `AppBundleStatus` (api/v1alpha1).  `phase` is the Go string type
whose zero value is `""` (the controller tests `Status.Phase == ""`). -/
structure AppBundleStatus where
  phase : String
  message : String
  groupStatuses : List GroupStatus
  observedGeneration : Int
  conditions : List Condition
deriving DecidableEq

/-- The `AppBundle` object: the metadata fields the controller touches
(name, namespace, generation, deletion timestamp, finalizers) plus spec
and status.  `deletionTimestampIsZero` embeds
`appBundle.DeletionTimestamp.IsZero()`. -/
structure AppBundle where
  name : String
  ns : String
  generation : Int
  deletionTimestampIsZero : Bool
  finalizers : List String
  spec : AppBundleSpec
  status : AppBundleStatus
deriving DecidableEq

/-- The identity under which the controller probes, creates and updates
a resource: group-version-kind plus namespace/name (controller lines
248-253 set the GVK on the probe object and Get by namespace/name). -/
structure ObjKey where
  apiVersion : String
  kind : String
  ns : String
  name : String
deriving DecidableEq

/-- The key of a manifest. -/
def keyOf (m : Manifest) : ObjKey :=
  { apiVersion := m.apiVersion, kind := m.kind, ns := m.ns, name := m.name }

/-- Observable client operations of a reconciliation pass.  `deleteOp`
exists so that the absence of deletions is statable; the controller
source never invokes a client Delete.  `bundleUpdate` is a main-object
write (`r.Update`), `bundleStatusUpdate` a status-subresource write
(`r.Status().Update`). -/
inductive Event where
  | getOp (k : ObjKey)
  | createOp (k : ObjKey)
  | updateOp (k : ObjKey) (rv : String)
  | deleteOp (k : ObjKey)
  | componentAttempt (group comp : String)
  | bundleUpdate
  | bundleStatusUpdate
  | finalizeCall
deriving DecidableEq

/-- Fault oracle for the cluster API: a `some e` entry makes the
corresponding client call fail with error message `e`, keeping every
error branch of the source reachable.  `getFault` models a non-NotFound
Get error (absence from the store is NotFound). -/
structure FaultSpec where
  getFault : ObjKey → Option String
  createFault : ObjKey → Option String
  updateFault : ObjKey → Option String
  bundleUpdateFault : Option String
  statusUpdateFault : Option String

/-- The oracle under which every client call succeeds. -/
def noFault : FaultSpec :=
  { getFault := fun _ => none, createFault := fun _ => none,
    updateFault := fun _ => none, bundleUpdateFault := none,
    statusUpdateFault := none }

/-- Cluster state: the stored resources (keyed association list), a
counter supplying fresh resource versions, the stored `AppBundle`
object, and the trace of client operations performed so far. -/
structure ClusterState where
  objs : List (ObjKey × Manifest)
  nextRV : Nat
  bundle : AppBundle
  trace : List Event

/-- Lookup of a stored object by key. -/
def lookupObj : List (ObjKey × Manifest) → ObjKey → Option Manifest
  | [], _ => none
  | p :: rest, k => if p.1 = k then some p.2 else lookupObj rest k

/-- Store an object under a key (replace when present, append when absent). -/
def insertObj : List (ObjKey × Manifest) → ObjKey → Manifest → List (ObjKey × Manifest)
  | [], k, m => [(k, m)]
  | p :: rest, k, m => if p.1 = k then (k, m) :: rest else p :: insertObj rest k m

/-- Append one event to the trace. -/
def pushEvent (st : ClusterState) (e : Event) : ClusterState :=
  { st with trace := st.trace ++ [e] }

/-- Insertion by a strict integer key comparison: the element goes in
front of the first strictly larger key, i.e. after every element of
equal key. -/
def orderedInsertKey (key : α → Int) (a : α) : List α → List α
  | [] => [a]
  | b :: l => if key a < key b then a :: b :: l else b :: orderedInsertKey key a l

/-- Deterministic model of `sort.Slice(xs, func(i, j) { return key(xs[i]) <
key(xs[j]) })` (controller lines 121-123 and 173-175): an insertion sort,
which satisfies the documented postcondition of `sort.Slice` (a
permutation ordered by the comparison).  `sort.Slice` itself promises
only that postcondition — the Go documentation states the sort is not
guaranteed to be stable — which `sortSliceContract` below captures. -/
def sortSlice (key : α → Int) : List α → List α
  | [] => []
  | a :: l => orderedInsertKey key a (sortSlice key l)

/-- Everything Go's `sort.Slice` guarantees about its output: it is a
permutation of the input that is non-decreasing under the key of the
less function.  Stability is deliberately NOT part of this contract
("The sort is not guaranteed to be stable" — Go standard library
documentation of `sort.Slice`). -/
def sortSliceContract (key : α → Int) (l l' : List α) : Prop :=
  l.Perm l' ∧ l'.Pairwise (fun a b => key a ≤ key b)

/-- The sync-wave number of a component: `baseSyncWave := group.Order *
100` (controller line 178) plus `component.Order` (line 215). -/
def syncWave (g : Group) (c : Component) : Int :=
  g.order * 100 + c.order

/-- Lines 206-238 of `reconcileComponent`: unmarshal the template, stamp
the sync-wave annotation (`strconv.Itoa(syncWave)`), add the three
tracking labels, and default the namespace to the bundle namespace when
the manifest has none and the bundle has one.  Fails exactly when the
template does not parse. -/
def prepareObj (appBundle : AppBundle) (group : Group) (component : Component)
    (baseSyncWave : Int) : Except String Manifest :=
  match component.template with
  | .error e => .error e
  | .ok obj =>
    let wave := baseSyncWave + component.order
    let obj := { obj with annotations := setKV obj.annotations argoSyncWaveKey (toString wave) }
    let lbls := setKV (setKV (setKV obj.labels "app.example.com/appbundle" appBundle.name)
      "app.example.com/group" group.name) "app.example.com/component" component.name
    let obj := { obj with labels := lbls }
    if obj.ns = "" ∧ appBundle.ns ≠ "" then
      .ok { obj with ns := appBundle.ns }
    else
      .ok obj

/-- Upsert into `metadata.ownerReferences` by group-version-kind/name
identity (`upsertOwnerRef` inside controller-runtime). -/
def upsertOwnerRef : List OwnerRef → OwnerRef → List OwnerRef
  | [], r => [r]
  | x :: rest, r =>
    if x.apiVersion = r.apiVersion ∧ x.kind = r.kind ∧ x.name = r.name then
      r :: rest
    else
      x :: upsertOwnerRef rest r

/-- `controllerutil.SetControllerReference` (controller-runtime v0.21)
called at controller line 241 with the bundle as owner: validate that a
namespaced owner only owns an object in the same namespace (its
`validateOwner`), refuse an object already controlled by a different
owner, then upsert a controller reference to the bundle. -/
def controllerRef (owner : AppBundle) : OwnerRef :=
  { apiVersion := appBundleApiVersion, kind := "AppBundle",
    name := owner.name, controller := true }

/-- Continuation of the `SetControllerReference` embedding. -/
def setControllerReference (owner : AppBundle) (obj : Manifest) : Except String Manifest :=
  if owner.ns ≠ "" ∧ obj.ns = "" then
    .error "cluster-scoped resource must not have a namespace-scoped owner"
  else if owner.ns ≠ "" ∧ obj.ns ≠ owner.ns then
    .error "cross-namespace owner references are disallowed"
  else
    let ref := controllerRef owner
    match obj.ownerRefs.find? (fun x => x.controller) with
    | some existing =>
      if existing.apiVersion = ref.apiVersion ∧ existing.kind = ref.kind ∧
          existing.name = ref.name then
        .ok { obj with ownerRefs := upsertOwnerRef obj.ownerRefs ref }
      else
        .error "object is already owned by another controller"
    | none => .ok { obj with ownerRefs := upsertOwnerRef obj.ownerRefs ref }

/-- A failed `ComponentStatus` as built on the error paths of
`reconcileComponent` (controller lines 209-211, 242-244, 260-262,
265-267, 274-276). -/
def failedStatus (c : Component) (msg : String) : ComponentStatus :=
  { name := c.name, phase := phaseFailed, message := msg, resourceRef := none }

/-- The success `ComponentStatus` of `reconcileComponent` (controller
lines 280-287): phase Deployed with a reference to the applied object. -/
def deployedStatus (c : Component) (obj : Manifest) : ComponentStatus :=
  { name := c.name, phase := phaseDeployed, message := "Resource deployed successfully",
    resourceRef := some { apiVersion := obj.apiVersion, kind := obj.kind,
                          name := obj.name, ns := obj.ns } }

/-- `reconcileComponent` (controller lines 198-290): parse and decorate
the template, set the controller owner reference, probe for an existing
object by GVK/namespace/name, then create it (absent) or update it with
the existing resource version stamped in (present).  Returns the
component status and the error, threading the cluster state.  The
leading `componentAttempt` trace event records that the component was
processed at all. -/
def reconcileComponent (fault : FaultSpec) (appBundle : AppBundle) (group : Group)
    (component : Component) (baseSyncWave : Int) (st : ClusterState) :
    (ComponentStatus × Option String) × ClusterState :=
  let st := pushEvent st (.componentAttempt group.name component.name)
  match prepareObj appBundle group component baseSyncWave with
  | .error e =>
    ((failedStatus component ("Failed to parse template: " ++ e), some e), st)
  | .ok obj =>
    match setControllerReference appBundle obj with
    | .error e =>
      ((failedStatus component ("Failed to set owner reference: " ++ e), some e), st)
    | .ok obj =>
      let k := keyOf obj
      let st := pushEvent st (.getOp k)
      match fault.getFault k with
      | some e =>
        ((failedStatus component ("Failed to get existing resource: " ++ e), some e), st)
      | none =>
        match lookupObj st.objs k with
        | none =>
          let st := pushEvent st (.createOp k)
          match fault.createFault k with
          | some e =>
            ((failedStatus component ("Failed to create resource: " ++ e), some e), st)
          | none =>
            let created := { obj with resourceVersion := toString st.nextRV }
            let st := { st with objs := insertObj st.objs k created, nextRV := st.nextRV + 1 }
            ((deployedStatus component obj, none), st)
        | some existing =>
          let obj := { obj with resourceVersion := existing.resourceVersion }
          let st := pushEvent st (.updateOp k existing.resourceVersion)
          match fault.updateFault k with
          | some e =>
            ((failedStatus component ("Failed to update resource: " ++ e), some e), st)
          | none =>
            let updated := { obj with resourceVersion := toString st.nextRV }
            let st := { st with objs := insertObj st.objs k updated, nextRV := st.nextRV + 1 }
            ((deployedStatus component obj, none), st)

/-- The `GroupStatus` value `reconcileGroup` starts from (controller
lines 164-168). -/
def initialGroupStatus (group : Group) : GroupStatus :=
  { name := group.name, phase := phaseDeploying, message := "", componentStatuses := [] }

/-- The `for _, component := range sortedComponents` loop of
`reconcileGroup` (controller lines 180-190): accumulate component
statuses; on the first error set the group Failed with the wrapping
message and stop. -/
def componentsStep (fault : FaultSpec) (appBundle : AppBundle) (group : Group)
    (baseSyncWave : Int) :
    List Component → GroupStatus → ClusterState → (GroupStatus × Option String) × ClusterState
  | [], gs, st => ((gs, none), st)
  | c :: rest, gs, st =>
    match reconcileComponent fault appBundle group c baseSyncWave st with
    | ((cs, some e), st') =>
      let gs' := { gs with
        phase := phaseFailed
        message := "Failed to deploy component " ++ c.name ++ ": " ++ e
        componentStatuses := gs.componentStatuses ++ [cs] }
      ((gs', some e), st')
    | ((cs, none), st') =>
      componentsStep fault appBundle group baseSyncWave rest
        { gs with componentStatuses := gs.componentStatuses ++ [cs] } st'

/-- `reconcileGroup` (controller lines 161-195): sort the components by
order (`sort.Slice` on a copy), compute the base sync wave, run the
component loop, and on full success finalize the group status as
Deployed. -/
def reconcileGroup (fault : FaultSpec) (appBundle : AppBundle) (group : Group)
    (st : ClusterState) : (GroupStatus × Option String) × ClusterState :=
  let sorted := sortSlice (fun c : Component => c.order) group.components
  let baseSyncWave := group.order * 100
  match componentsStep fault appBundle group baseSyncWave sorted (initialGroupStatus group) st with
  | ((gs, some e), st') => ((gs, some e), st')
  | ((gs, none), st') =>
    let gs' := { gs with
      phase := phaseDeployed
      message := "All components deployed successfully" }
    ((gs', none), st')

/-- Append group statuses to the in-memory bundle status (the
`appBundle.Status.GroupStatuses = append(...)` statements at controller
lines 133 and 136). -/
def appendGS (b : AppBundle) (l : List GroupStatus) : AppBundle :=
  { b with status := { b.status with groupStatuses := b.status.groupStatuses ++ l } }

/-- The `for _, group := range sortedGroups` loop of `Reconcile`
(controller lines 129-137): append each group status to the bundle
status; on the first error stop and surface it. -/
def groupsLoop (fault : FaultSpec) :
    List Group → AppBundle → ClusterState → Option String × AppBundle × ClusterState
  | [], b, st => (none, b, st)
  | g :: rest, b, st =>
    match reconcileGroup fault b g st with
    | ((gs, some e), st') => (some e, appendGS b [gs], st')
    | ((gs, none), st') => groupsLoop fault rest (appendGS b [gs]) st'

/-- `r.Status().Update`: persist the in-memory bundle status into the
stored bundle object, leaving every non-status field of the stored
object untouched (status is a subresource). -/
def statusUpdate (fault : FaultSpec) (b : AppBundle) (st : ClusterState) :
    Option String × ClusterState :=
  let st := pushEvent st .bundleStatusUpdate
  match fault.statusUpdateFault with
  | some e => (some e, st)
  | none => (none, { st with bundle := { st.bundle with status := b.status } })

/-- `r.Update` on the bundle: persist the in-memory main object (its
metadata and spec), leaving the stored status untouched (status is a
subresource and is ignored by a main-object update). -/
def bundleMainUpdate (fault : FaultSpec) (b : AppBundle) (st : ClusterState) :
    Option String × ClusterState :=
  let st := pushEvent st .bundleUpdate
  match fault.bundleUpdateFault with
  | some e => (some e, st)
  | none => (none, { st with bundle := { b with status := st.bundle.status } })

/-- The Ready=False condition written on failure (controller lines
333-339). -/
def failCondition (gen : Int) (e : String) : Condition :=
  { condType := "Ready", status := false, reason := "DeploymentFailed",
    message := e, observedGeneration := gen }

/-- The in-memory bundle after `updateStatusWithError` marks it Failed
(controller lines 330-339). -/
def markFailed (b : AppBundle) (e : String) : AppBundle :=
  { b with status := { b.status with
    phase := phaseFailed
    message := e
    conditions := setStatusCondition b.status.conditions (failCondition b.generation e) } }

/-- `updateStatusWithError` (controller lines 329-346): mark the bundle
Failed with the error message, set the Ready=False condition, write the
status, and return the original error (or the status-write error when
that write itself fails). -/
def updateStatusWithError (fault : FaultSpec) (b : AppBundle) (st : ClusterState)
    (e : String) : Option String × ClusterState :=
  match statusUpdate fault (markFailed b e) st with
  | (some se, st') => (some se, st')
  | (none, st') => (some e, st')

/-- `finalizeAppBundle` (controller lines 317-326): the source only logs
and returns nil — cleanup is left to Kubernetes garbage collection via
owner references, no resource is deleted here.  The `finalizeCall`
event records the invocation. -/
def finalizeAppBundle (st : ClusterState) : Option String × ClusterState :=
  (none, pushEvent st .finalizeCall)

/-- `reconcilePorchPackages` (controller lines 294-313): an explicit
TODO placeholder in the source — it only logs and returns nil, creating
no package-variant request and attaching no mutation pipeline. -/
def reconcilePorchPackages (st : ClusterState) : Option String × ClusterState :=
  (none, st)

/-- The in-memory bundle at the start of the deploy loop (controller
lines 126-127): phase Deploying and a fresh empty group-status list. -/
def deployingInit (b : AppBundle) : AppBundle :=
  { b with status := { b.status with phase := phaseDeploying, groupStatuses := [] } }

/-- The Ready=True condition written on full success (controller lines
145-151). -/
def readyCondition (gen : Int) : Condition :=
  { condType := "Ready", status := true, reason := "DeploymentComplete",
    message := "All resources deployed successfully", observedGeneration := gen }

/-- The in-memory bundle after the fully successful epilogue of
`Reconcile` (controller lines 140-151): phase Deployed, success message,
observed generation recorded, Ready=True condition upserted. -/
def markDeployed (b : AppBundle) : AppBundle :=
  { b with status := { b.status with
    phase := phaseDeployed
    message := "All groups deployed successfully"
    observedGeneration := b.generation
    conditions := setStatusCondition b.status.conditions (readyCondition b.generation) } }

/-- `Reconcile` lines 110-157: the Porch hook, the group sort, the
deploy loop, and the terminal status write. -/
def reconcileMain (fault : FaultSpec) (b : AppBundle) (st : ClusterState) :
    Option String × ClusterState :=
  let porch :=
    match b.spec.porchIntegration with
    | some p => if p.enabled then reconcilePorchPackages st else (none, st)
    | none => (none, st)
  match porch with
  | (some e, st') => updateStatusWithError fault b st' e
  | (none, st') =>
    let sortedGroups := sortSlice (fun g : Group => g.order) b.spec.groups
    match groupsLoop fault sortedGroups (deployingInit b) st' with
    | (some e, b', st'') => updateStatusWithError fault b' st'' e
    | (none, b', st'') => statusUpdate fault (markDeployed b') st''

/-- `Reconcile` lines 86-108: the deletion/finalizer branch and the
status initialization, then the main deploy path. -/
def reconcileAfterFinalizer (fault : FaultSpec) (b : AppBundle) (st : ClusterState) :
    Option String × ClusterState :=
  if b.deletionTimestampIsZero = false then
    if appBundleFinalizer ∈ b.finalizers then
      match finalizeAppBundle st with
      | (some e, st') => (some e, st')
      | (none, st') =>
        let b := { b with finalizers := b.finalizers.filter (fun f => f ≠ appBundleFinalizer) }
        match bundleMainUpdate fault b st' with
        | (some e, st'') => (some e, st'')
        | (none, st'') => (none, st'')
    else
      (none, st)
  else
    if b.status.phase = "" then
      let b := { b with status := { b.status with phase := phasePending } }
      match statusUpdate fault b st with
      | (some e, st') => (some e, st')
      | (none, st') => reconcileMain fault b st'
    else
      reconcileMain fault b st

/-- `Reconcile` (controller lines 62-158) for a fetched bundle: the
initial Get (lines 66-75) is embedded by `st.bundle` being the fetched
object; then the finalizer is added if missing (lines 78-83, a
main-object update) and the pass continues with the deletion branch,
status initialization, Porch hook, group loop and status writes. -/
def Reconcile (fault : FaultSpec) (st : ClusterState) : Option String × ClusterState :=
  let b := st.bundle
  if appBundleFinalizer ∈ b.finalizers then
    reconcileAfterFinalizer fault b st
  else
    let b := { b with finalizers := b.finalizers ++ [appBundleFinalizer] }
    match bundleMainUpdate fault b st with
    | (some e, st') => (some e, st')
    | (none, st') => reconcileAfterFinalizer fault b st'

/-- A placeholder manifest used only as the default of `Option.getD` in
derived definitions; it never reaches any theorem hypothesis. -/
def emptyManifest : Manifest :=
  { apiVersion := "", kind := "", name := "", ns := "", annotations := [],
    labels := [], resourceVersion := "", ownerRefs := [] }

/-- The manifest a component resolves to on the success path of
`reconcileComponent`: the decorated template after the owner reference
step; `none` when parsing or the owner-reference call fails. -/
def resolvedManifest? (b : AppBundle) (g : Group) (base : Int) (c : Component) :
    Option Manifest :=
  match prepareObj b g c base with
  | .error _ => none
  | .ok m =>
    match setControllerReference b m with
    | .error _ => none
    | .ok m2 => some m2

/-- The cluster key a component is applied under, for an arbitrary base
sync wave. -/
def compKey (b : AppBundle) (g : Group) (base : Int) (c : Component) : ObjKey :=
  keyOf ((resolvedManifest? b g base c).getD emptyManifest)

/-- The cluster key a component is applied under. -/
def resolvedKey (b : AppBundle) (g : Group) (c : Component) : ObjKey :=
  compKey b g (g.order * 100) c

/-- The component status a successful application computes: Deployed
with a reference to the resolved manifest. -/
def deployedStatusOf (b : AppBundle) (g : Group) (base : Int) (c : Component) :
    ComponentStatus :=
  deployedStatus c ((resolvedManifest? b g base c).getD emptyManifest)

/-- The group status a fully successful pass computes for a group. -/
def expectedGS (b : AppBundle) (g : Group) : GroupStatus :=
  { name := g.name, phase := phaseDeployed,
    message := "All components deployed successfully",
    componentStatuses := (sortSlice (fun c : Component => c.order) g.components).map
      (deployedStatusOf b g (g.order * 100)) }

/-- The bundle status a fully successful pass computes and persists. -/
def finalStatus (b : AppBundle) : AppBundleStatus :=
  { phase := phaseDeployed
    message := "All groups deployed successfully"
    groupStatuses := (sortSlice (fun g : Group => g.order) b.spec.groups).map (expectedGS b)
    observedGeneration := b.generation
    conditions := setStatusCondition b.status.conditions (readyCondition b.generation) }

/-- Events a component reconciliation can emit (never a bundle write,
never a delete). -/
def isCompEvent : Event → Bool
  | .componentAttempt _ _ => true
  | .getOp _ => true
  | .createOp _ => true
  | .updateOp _ _ => true
  | _ => false

/-- Events a live (non-deleting) pass with the finalizer already in
place can emit: component operations and status-subresource writes —
in particular never a main-object write. -/
def isLiveEvent (e : Event) : Bool :=
  isCompEvent e || (e == Event.bundleStatusUpdate)

/-! ### Concrete inputs used by witnesses and counterexamples -/

/-- A plain manifest with empty metadata maps, as a freshly unmarshalled
template. -/
def plainManifest (api kind name ns : String) : Manifest :=
  { apiVersion := api, kind := kind, name := name, ns := ns,
    annotations := [], labels := [], resourceVersion := "", ownerRefs := [] }

/-- A template-backed component without a package reference. -/
def plainComponent (n : String) (ord : Int) (m : Manifest) : Component :=
  { name := n, order := ord, template := .ok m, porchPackageRef := none }

/-- The zero-valued bundle status of a freshly created object. -/
def emptyBundleStatus : AppBundleStatus :=
  { phase := "", message := "", groupStatuses := [], observedGeneration := 0,
    conditions := [] }

/-- The ConfigMap component of the controller test suite. -/
def cfgComponent : Component :=
  plainComponent "config" 0 (plainManifest "v1" "ConfigMap" "test-config" "default")

/-- The Service component of the controller test suite. -/
def svcComponent : Component :=
  plainComponent "service" 0 (plainManifest "v1" "Service" "test-service" "default")

/-- Group `infrastructure` (order 0) of the controller test suite. -/
def demoInfra : Group :=
  { name := "infrastructure", order := 0, components := [cfgComponent] }

/-- Group `application` (order 1) of the controller test suite. -/
def demoApp : Group :=
  { name := "application", order := 1, components := [svcComponent] }

/-- The ConfigMap/Service bundle of the controller test suite
(`appbundle_controller_test.go`). -/
def demoGroups : List Group := [demoInfra, demoApp]

/-- The test bundle, already carrying the finalizer, alive, status empty. -/
def demoBundle : AppBundle :=
  { name := "test-resource", ns := "default", generation := 1,
    deletionTimestampIsZero := true, finalizers := [appBundleFinalizer],
    spec := { groups := demoGroups, porchIntegration := none },
    status := emptyBundleStatus }

/-- An empty cluster holding the test bundle. -/
def demoState : ClusterState :=
  { objs := [], nextRV := 1, bundle := demoBundle, trace := [] }

/-- Group of order 0 holding one component of order 150 — fewer than 100
components, yet a component order beyond the 100-wide wave band. -/
def c1g1 : Group :=
  { name := "g1", order := 0, components :=
    [ plainComponent "big" 150 (plainManifest "v1" "ConfigMap" "big" "default") ] }

/-- Group of order 1 holding one component of order 0. -/
def c1g2 : Group :=
  { name := "g2", order := 1, components :=
    [ plainComponent "zero" 0 (plainManifest "v1" "Service" "zero" "default") ] }

/-- A Job component: the engine applies it and never inspects its status
conditions. -/
def jobComponent : Component :=
  plainComponent "migrate" 0 (plainManifest "batch/v1" "Job" "migrate" "default")

/-- Group holding the Job component. -/
def jobGroup : Group := { name := "jobs", order := 1, components := [jobComponent] }

/-- A component whose template names a namespace different from the
bundle's. -/
def crossNsComponent : Component :=
  plainComponent "cfg" 0 (plainManifest "v1" "ConfigMap" "cfg" "other-ns")

/-- Group holding the cross-namespace component. -/
def crossNsGroup : Group :=
  { name := "cfgs", order := 0, components := [crossNsComponent] }

/-- A component referencing a Porch package; its template produces a
ConfigMap, which is not a recognizable workload kind. -/
def porchComponent : Component :=
  { name := "mongodb", order := 0,
    template := .ok (plainManifest "v1" "ConfigMap" "mongodb-config" "default"),
    porchPackageRef := some { name := "mongodb", ns := "", revision := "" } }

/-- A bundle with Porch integration enabled and one packaged component. -/
def porchBundle : AppBundle :=
  { name := "porch-bundle", ns := "default", generation := 1,
    deletionTimestampIsZero := true, finalizers := [appBundleFinalizer],
    spec := { groups := [ { name := "db", order := 0, components := [porchComponent] } ],
              porchIntegration := some { enabled := true, repository := "mgmt" } },
    status := emptyBundleStatus }

/-- An empty cluster holding the porch bundle. -/
def porchState : ClusterState :=
  { objs := [], nextRV := 1, bundle := porchBundle, trace := [] }

/-- The key of an already-deployed cluster-scoped Namespace object. -/
def c5nsKey : ObjKey :=
  { apiVersion := "v1", kind := "Namespace", ns := "default", name := "free5gc" }

/-- The already-deployed Namespace object itself. -/
def c5nsObj : Manifest :=
  { plainManifest "v1" "Namespace" "free5gc" "default" with resourceVersion := "7" }

/-- A bundle marked for deletion that still carries the finalizer and
declares the Namespace component. -/
def c5Groups : List Group :=
  [ { name := "infra", order := 0, components :=
      [ plainComponent "namespace" 0 (plainManifest "v1" "Namespace" "free5gc" "") ] } ]

/-- The bundle of the finalization scenario (continued). -/
def c5Bundle : AppBundle :=
  { name := "doomed", ns := "default", generation := 2,
    deletionTimestampIsZero := false, finalizers := [appBundleFinalizer],
    spec := { groups := c5Groups, porchIntegration := none },
    status := { phase := "Deployed", message := "All groups deployed successfully",
                groupStatuses := [], observedGeneration := 2, conditions := [] } }

/-- The cluster at deletion time: the Namespace object exists. -/
def c5State : ClusterState :=
  { objs := [(c5nsKey, c5nsObj)], nextRV := 8, bundle := c5Bundle, trace := [] }

/-- A live bundle that does not yet carry the finalizer. -/
def c9Bundle : AppBundle := { demoBundle with finalizers := [] }

/-- Cluster holding the finalizer-less bundle. -/
def c9State : ClusterState :=
  { objs := [], nextRV := 1, bundle := c9Bundle, trace := [] }

/-- A component whose raw template is not valid structured data. -/
def badComponent : Component :=
  { name := "broken", order := 1, template := .error "invalid character", porchPackageRef := none }

/-- A healthy component before the failing one. -/
def c2cOk1 : Component := plainComponent "ok1" 0 (plainManifest "v1" "ConfigMap" "ok1" "default")

/-- A component after the failing one that must never run. -/
def c2cNever : Component :=
  plainComponent "never" 2 (plainManifest "v1" "ConfigMap" "never" "default")

/-- First (healthy) group of the error-propagation scenario. -/
def c2gFirst : Group :=
  { name := "first", order := 0, components :=
    [ plainComponent "ok0" 0 (plainManifest "v1" "ConfigMap" "ok0" "default") ] }

/-- The group whose middle component fails to parse. -/
def c2gFailing : Group :=
  { name := "failing", order := 1, components := [c2cOk1, badComponent, c2cNever] }

/-- A group after the failing one that must never run. -/
def c2gLast : Group :=
  { name := "last", order := 2, components :=
    [ plainComponent "ok2" 0 (plainManifest "v1" "ConfigMap" "ok2" "default") ] }

/-- Groups for the error-propagation scenario. -/
def c2Groups : List Group := [c2gFirst, c2gFailing, c2gLast]

/-- The bundle of the error-propagation scenario, mid-lifecycle. -/
def c2Bundle : AppBundle :=
  { name := "errbundle", ns := "default", generation := 3,
    deletionTimestampIsZero := true, finalizers := [appBundleFinalizer],
    spec := { groups := c2Groups, porchIntegration := none },
    status := { phase := "Pending", message := "", groupStatuses := [],
                observedGeneration := 0, conditions := [] } }

/-- Empty cluster holding the error-propagation bundle. -/
def c2State : ClusterState :=
  { objs := [], nextRV := 1, bundle := c2Bundle, trace := [] }

/-- The in-memory bundle after the healthy first group of the
error-propagation pass. -/
def c2B2 : AppBundle := (groupsLoop noFault [c2gFirst] (deployingInit c2Bundle) c2State).2.1

/-- The cluster state after the healthy first group. -/
def c2St2 : ClusterState :=
  (groupsLoop noFault [c2gFirst] (deployingInit c2Bundle) c2State).2.2

/-- The component loop of the failing group up to (excluding) the bad
component. -/
def c2Step : (GroupStatus × Option String) × ClusterState :=
  componentsStep noFault c2B2 c2gFailing 100 [c2cOk1] (initialGroupStatus c2gFailing) c2St2

/-- The failing component's reconciliation. -/
def c2Rc : (ComponentStatus × Option String) × ClusterState :=
  reconcileComponent noFault c2B2 c2gFailing badComponent 100 c2Step.2

/-- Two groups with the same order and different names: their relative
processing order is what stability would pin down. -/
def c8gA : Group := { name := "a", order := 0, components :=
  [ plainComponent "a0" 0 (plainManifest "v1" "ConfigMap" "a0" "default") ] }

/-- The second equal-order group. -/
def c8gB : Group := { name := "b", order := 0, components :=
  [ plainComponent "b0" 0 (plainManifest "v1" "ConfigMap" "b0" "default") ] }

/-! ### Lemmas about the sorting model -/

theorem orderedInsertKey_perm (key : α → Int) (a : α) (l : List α) :
    (orderedInsertKey key a l).Perm (a :: l) := by
  induction l with
  | nil => simp [orderedInsertKey]
  | cons b t ih =>
    simp only [orderedInsertKey]
    split
    · exact List.Perm.refl _
    · exact (ih.cons b).trans (List.Perm.swap a b t)

theorem sortSlice_perm (key : α → Int) (l : List α) : (sortSlice key l).Perm l := by
  induction l with
  | nil => simp [sortSlice]
  | cons a t ih =>
    exact (orderedInsertKey_perm key a (sortSlice key t)).trans (ih.cons a)

theorem mem_sortSlice (key : α → Int) (l : List α) (x : α) :
    x ∈ sortSlice key l ↔ x ∈ l :=
  (sortSlice_perm key l).mem_iff

theorem orderedInsertKey_pairwise (key : α → Int) (a : α) (l : List α)
    (h : l.Pairwise (fun x y => key x ≤ key y)) :
    (orderedInsertKey key a l).Pairwise (fun x y => key x ≤ key y) := by
  induction l with
  | nil => simp [orderedInsertKey]
  | cons b t ih =>
    rcases List.pairwise_cons.mp h with ⟨hb, ht⟩
    simp only [orderedInsertKey]
    split
    · rename_i hab
      refine List.pairwise_cons.mpr ⟨?_, h⟩
      intro z hz
      rcases List.mem_cons.mp hz with rfl | hz
      · exact le_of_lt hab
      · exact le_trans (le_of_lt hab) (hb z hz)
    · rename_i hab
      refine List.pairwise_cons.mpr ⟨?_, ih ht⟩
      intro z hz
      have hz' : z ∈ a :: t := (orderedInsertKey_perm key a t).mem_iff.mp hz
      rcases List.mem_cons.mp hz' with h | h
      · subst h; exact le_of_not_lt hab
      · exact hb z h

theorem sortSlice_pairwise (key : α → Int) (l : List α) :
    (sortSlice key l).Pairwise (fun x y => key x ≤ key y) := by
  induction l with
  | nil => simp [sortSlice]
  | cons a t ih => exact orderedInsertKey_pairwise key a _ ih

/-! ### Lemmas about the stored-object map -/

theorem lookupObj_insertObj (objs : List (ObjKey × Manifest)) (k : ObjKey) (m : Manifest)
    (k' : ObjKey) :
    lookupObj (insertObj objs k m) k' = if k' = k then some m else lookupObj objs k' := by
  induction objs with
  | nil =>
    simp only [insertObj, lookupObj]
    by_cases h : k' = k
    · subst h; simp
    · simp [h, Ne.symm h]
  | cons p rest ih =>
    simp only [insertObj]
    by_cases h1 : p.1 = k
    · simp only [h1, if_true, lookupObj]
      by_cases h2 : k' = k
      · subst h2; simp
      · simp [lookupObj, h1, h2, Ne.symm h2]
    · simp only [h1, if_false, lookupObj]
      by_cases h2 : p.1 = k'
      · have hne : ¬k' = k := fun hh => h1 (h2.trans hh)
        simp [lookupObj, h2, hne]
      · simp [lookupObj, h2, ih]

theorem lookupObj_insertObj_self (objs : List (ObjKey × Manifest)) (k : ObjKey)
    (m : Manifest) : lookupObj (insertObj objs k m) k = some m := by
  rw [lookupObj_insertObj, if_pos rfl]

theorem lookupObj_insertObj_ne (objs : List (ObjKey × Manifest)) (k : ObjKey)
    (m : Manifest) (k' : ObjKey) (h : k' ≠ k) :
    lookupObj (insertObj objs k m) k' = lookupObj objs k' := by
  rw [lookupObj_insertObj, if_neg h]

theorem lookupObj_insertObj_isSome (objs : List (ObjKey × Manifest)) (k : ObjKey)
    (m : Manifest) (k' : ObjKey) (h : (lookupObj objs k').isSome) :
    (lookupObj (insertObj objs k m) k').isSome := by
  rw [lookupObj_insertObj]
  by_cases hk : k' = k <;> simp [hk, h]

/-! ### Lemmas about condition upserts -/

theorem setStatusCondition_idem (conds : List Condition) (c : Condition) :
    setStatusCondition (setStatusCondition conds c) c = setStatusCondition conds c := by
  induction conds with
  | nil => simp [setStatusCondition]
  | cons x rest ih =>
    by_cases h : x.condType = c.condType
    · simp [setStatusCondition, h]
    · simp [setStatusCondition, h, ih]

/-! ### Branch equations for `reconcileComponent` -/

theorem rc_parse_err (fault : FaultSpec) (b : AppBundle) (g : Group) (c : Component)
    (w : Int) (st : ClusterState) (e : String) (hp : prepareObj b g c w = .error e) :
    reconcileComponent fault b g c w st =
      ((failedStatus c ("Failed to parse template: " ++ e), some e),
       pushEvent st (.componentAttempt g.name c.name)) := by
  simp [reconcileComponent, hp]

theorem rc_owner_err (fault : FaultSpec) (b : AppBundle) (g : Group) (c : Component)
    (w : Int) (st : ClusterState) (m : Manifest) (e : String)
    (hp : prepareObj b g c w = .ok m) (ho : setControllerReference b m = .error e) :
    reconcileComponent fault b g c w st =
      ((failedStatus c ("Failed to set owner reference: " ++ e), some e),
       pushEvent st (.componentAttempt g.name c.name)) := by
  simp [reconcileComponent, hp, ho]

theorem rc_get_err (fault : FaultSpec) (b : AppBundle) (g : Group) (c : Component)
    (w : Int) (st : ClusterState) (m m2 : Manifest) (e : String)
    (hp : prepareObj b g c w = .ok m) (ho : setControllerReference b m = .ok m2)
    (hg : fault.getFault (keyOf m2) = some e) :
    reconcileComponent fault b g c w st =
      ((failedStatus c ("Failed to get existing resource: " ++ e), some e),
       pushEvent (pushEvent st (.componentAttempt g.name c.name)) (.getOp (keyOf m2))) := by
  simp [reconcileComponent, hp, ho, hg, pushEvent]

theorem rc_create_err (fault : FaultSpec) (b : AppBundle) (g : Group) (c : Component)
    (w : Int) (st : ClusterState) (m m2 : Manifest) (e : String)
    (hp : prepareObj b g c w = .ok m) (ho : setControllerReference b m = .ok m2)
    (hg : fault.getFault (keyOf m2) = none)
    (hlk : lookupObj st.objs (keyOf m2) = none)
    (hc : fault.createFault (keyOf m2) = some e) :
    reconcileComponent fault b g c w st =
      ((failedStatus c ("Failed to create resource: " ++ e), some e),
       { st with trace := st.trace ++
           [.componentAttempt g.name c.name, .getOp (keyOf m2), .createOp (keyOf m2)] }) := by
  simp [reconcileComponent, hp, ho, hg, hlk, hc, pushEvent]

theorem rc_create (fault : FaultSpec) (b : AppBundle) (g : Group) (c : Component)
    (w : Int) (st : ClusterState) (m m2 : Manifest)
    (hp : prepareObj b g c w = .ok m) (ho : setControllerReference b m = .ok m2)
    (hg : fault.getFault (keyOf m2) = none)
    (hlk : lookupObj st.objs (keyOf m2) = none)
    (hc : fault.createFault (keyOf m2) = none) :
    reconcileComponent fault b g c w st =
      ((deployedStatus c m2, none),
       { objs := insertObj st.objs (keyOf m2) { m2 with resourceVersion := toString st.nextRV }
         nextRV := st.nextRV + 1
         bundle := st.bundle
         trace := st.trace ++
           [.componentAttempt g.name c.name, .getOp (keyOf m2), .createOp (keyOf m2)] }) := by
  simp [reconcileComponent, hp, ho, hg, hlk, hc, pushEvent]

theorem rc_update_err (fault : FaultSpec) (b : AppBundle) (g : Group) (c : Component)
    (w : Int) (st : ClusterState) (m m2 ex : Manifest) (e : String)
    (hp : prepareObj b g c w = .ok m) (ho : setControllerReference b m = .ok m2)
    (hg : fault.getFault (keyOf m2) = none)
    (hlk : lookupObj st.objs (keyOf m2) = some ex)
    (hu : fault.updateFault (keyOf m2) = some e) :
    reconcileComponent fault b g c w st =
      ((failedStatus c ("Failed to update resource: " ++ e), some e),
       { st with trace := st.trace ++
           [.componentAttempt g.name c.name, .getOp (keyOf m2),
            .updateOp (keyOf m2) ex.resourceVersion] }) := by
  simp [reconcileComponent, hp, ho, hg, hlk, hu, pushEvent]

theorem deployedStatus_rv (c : Component) (m : Manifest) (r : String) :
    deployedStatus c { m with resourceVersion := r } = deployedStatus c m := by
  simp [deployedStatus]

theorem rc_update (fault : FaultSpec) (b : AppBundle) (g : Group) (c : Component)
    (w : Int) (st : ClusterState) (m m2 ex : Manifest)
    (hp : prepareObj b g c w = .ok m) (ho : setControllerReference b m = .ok m2)
    (hg : fault.getFault (keyOf m2) = none)
    (hlk : lookupObj st.objs (keyOf m2) = some ex)
    (hu : fault.updateFault (keyOf m2) = none) :
    reconcileComponent fault b g c w st =
      ((deployedStatus c m2, none),
       { objs := insertObj st.objs (keyOf m2) { m2 with resourceVersion := toString st.nextRV }
         nextRV := st.nextRV + 1
         bundle := st.bundle
         trace := st.trace ++
           [.componentAttempt g.name c.name, .getOp (keyOf m2),
            .updateOp (keyOf m2) ex.resourceVersion] }) := by
  simp [reconcileComponent, hp, ho, hg, hlk, hu, pushEvent, deployedStatus]

/-- Every run of `reconcileComponent` either succeeds — error `none`,
status `deployedStatus` for the resolved manifest — or fails with phase
Failed, no resource reference, and a message carrying the error. -/
theorem rc_classify (fault : FaultSpec) (b : AppBundle) (g : Group) (c : Component)
    (w : Int) (st : ClusterState) :
    ((reconcileComponent fault b g c w st).1.1.phase = phaseDeployed ∧
      (reconcileComponent fault b g c w st).1.2 = none ∧
      ∃ m m2, prepareObj b g c w = .ok m ∧ setControllerReference b m = .ok m2 ∧
        (reconcileComponent fault b g c w st).1.1 = deployedStatus c m2) ∨
    (∃ e msgp, (reconcileComponent fault b g c w st).1.2 = some e ∧
      (reconcileComponent fault b g c w st).1.1.phase = phaseFailed ∧
      (reconcileComponent fault b g c w st).1.1.resourceRef = none ∧
      (reconcileComponent fault b g c w st).1.1.message = msgp ++ e) := by
  cases hp : prepareObj b g c w with
  | error e =>
    rw [rc_parse_err fault b g c w st e hp]
    exact Or.inr ⟨e, "Failed to parse template: ", rfl, rfl, rfl, rfl⟩
  | ok m =>
    cases ho : setControllerReference b m with
    | error e =>
      rw [rc_owner_err fault b g c w st m e hp ho]
      exact Or.inr ⟨e, "Failed to set owner reference: ", rfl, rfl, rfl, rfl⟩
    | ok m2 =>
      cases hg : fault.getFault (keyOf m2) with
      | some e =>
        rw [rc_get_err fault b g c w st m m2 e hp ho hg]
        exact Or.inr ⟨e, "Failed to get existing resource: ", rfl, rfl, rfl, rfl⟩
      | none =>
        cases hlk : lookupObj st.objs (keyOf m2) with
        | none =>
          cases hc : fault.createFault (keyOf m2) with
          | some e =>
            rw [rc_create_err fault b g c w st m m2 e hp ho hg hlk hc]
            exact Or.inr ⟨e, "Failed to create resource: ", rfl, rfl, rfl, rfl⟩
          | none =>
            rw [rc_create fault b g c w st m m2 hp ho hg hlk hc]
            exact Or.inl ⟨rfl, rfl, m, m2, rfl, ho, rfl⟩
        | some ex =>
          cases hu : fault.updateFault (keyOf m2) with
          | some e =>
            rw [rc_update_err fault b g c w st m m2 ex e hp ho hg hlk hu]
            exact Or.inr ⟨e, "Failed to update resource: ", rfl, rfl, rfl, rfl⟩
          | none =>
            rw [rc_update fault b g c w st m m2 ex hp ho hg hlk hu]
            exact Or.inl ⟨rfl, rfl, m, m2, rfl, ho, rfl⟩

/-- Frame conditions of one component reconciliation: the stored bundle
is untouched, the trace only grows by component-level events, and stored
objects never disappear. -/
theorem rc_frame (fault : FaultSpec) (b : AppBundle) (g : Group) (c : Component)
    (w : Int) (st : ClusterState) :
    (reconcileComponent fault b g c w st).2.bundle = st.bundle ∧
    (∃ d, (reconcileComponent fault b g c w st).2.trace = st.trace ++ d ∧
      d.all isCompEvent = true) ∧
    (∀ k, (lookupObj st.objs k).isSome →
      (lookupObj (reconcileComponent fault b g c w st).2.objs k).isSome) := by
  cases hp : prepareObj b g c w with
  | error e =>
    rw [rc_parse_err fault b g c w st e hp]
    exact ⟨rfl, ⟨[.componentAttempt g.name c.name], rfl, rfl⟩, fun k h => h⟩
  | ok m =>
    cases ho : setControllerReference b m with
    | error e =>
      rw [rc_owner_err fault b g c w st m e hp ho]
      exact ⟨rfl, ⟨[.componentAttempt g.name c.name], rfl, rfl⟩, fun k h => h⟩
    | ok m2 =>
      cases hg : fault.getFault (keyOf m2) with
      | some e =>
        rw [rc_get_err fault b g c w st m m2 e hp ho hg]
        exact ⟨rfl, ⟨[.componentAttempt g.name c.name, .getOp (keyOf m2)],
          by simp [pushEvent], rfl⟩, fun k h => h⟩
      | none =>
        cases hlk : lookupObj st.objs (keyOf m2) with
        | none =>
          cases hc : fault.createFault (keyOf m2) with
          | some e =>
            rw [rc_create_err fault b g c w st m m2 e hp ho hg hlk hc]
            exact ⟨rfl, ⟨[.componentAttempt g.name c.name, .getOp (keyOf m2),
              .createOp (keyOf m2)], rfl, rfl⟩, fun k h => h⟩
          | none =>
            rw [rc_create fault b g c w st m m2 hp ho hg hlk hc]
            exact ⟨rfl, ⟨[.componentAttempt g.name c.name, .getOp (keyOf m2),
              .createOp (keyOf m2)], rfl, rfl⟩,
              fun k h => lookupObj_insertObj_isSome _ _ _ _ h⟩
        | some ex =>
          cases hu : fault.updateFault (keyOf m2) with
          | some e =>
            rw [rc_update_err fault b g c w st m m2 ex e hp ho hg hlk hu]
            exact ⟨rfl, ⟨[.componentAttempt g.name c.name, .getOp (keyOf m2),
              .updateOp (keyOf m2) ex.resourceVersion], rfl, rfl⟩, fun k h => h⟩
          | none =>
            rw [rc_update fault b g c w st m m2 ex hp ho hg hlk hu]
            exact ⟨rfl, ⟨[.componentAttempt g.name c.name, .getOp (keyOf m2),
              .updateOp (keyOf m2) ex.resourceVersion], rfl, rfl⟩,
              fun k h => lookupObj_insertObj_isSome _ _ _ _ h⟩

/-- A component whose manifest resolves (template parses, owner
reference succeeds) reconciles successfully under a fault-free client:
the status is Deployed for the resolved manifest, the object ends up
stored under its key, no other key changes, and the trace records a
probe followed by a create (when absent) or an update stamping the
existing resource version (when present). -/
theorem rc_noFault (b : AppBundle) (g : Group) (c : Component) (base : Int)
    (st : ClusterState) (m2 : Manifest)
    (hres : resolvedManifest? b g base c = some m2) :
    ∃ st', reconcileComponent noFault b g c base st = ((deployedStatus c m2, none), st') ∧
      st'.bundle = st.bundle ∧
      (lookupObj st'.objs (keyOf m2)).isSome ∧
      (∀ k, k ≠ keyOf m2 → lookupObj st'.objs k = lookupObj st.objs k) ∧
      (∀ k, (lookupObj st.objs k).isSome → (lookupObj st'.objs k).isSome) ∧
      (lookupObj st.objs (keyOf m2) = none →
        st'.trace = st.trace ++
          [.componentAttempt g.name c.name, .getOp (keyOf m2), .createOp (keyOf m2)]) ∧
      (∀ ex, lookupObj st.objs (keyOf m2) = some ex →
        st'.trace = st.trace ++
          [.componentAttempt g.name c.name, .getOp (keyOf m2),
           .updateOp (keyOf m2) ex.resourceVersion]) := by
  cases hp : prepareObj b g c base with
  | error e => simp [resolvedManifest?, hp] at hres
  | ok m =>
    cases ho : setControllerReference b m with
    | error e => simp [resolvedManifest?, hp, ho] at hres
    | ok mm =>
      have hm2 : mm = m2 := by simpa [resolvedManifest?, hp, ho] using hres
      subst hm2
      cases hlk : lookupObj st.objs (keyOf mm) with
      | none =>
        rw [rc_create noFault b g c base st m mm hp ho rfl hlk rfl]
        refine ⟨_, rfl, rfl, ?_, ?_, ?_, fun _ => rfl, ?_⟩
        · rw [lookupObj_insertObj_self]; rfl
        · exact fun k hk => lookupObj_insertObj_ne _ _ _ _ hk
        · exact fun k h => lookupObj_insertObj_isSome _ _ _ _ h
        · intro ex hex; cases hex
      | some ex =>
        rw [rc_update noFault b g c base st m mm ex hp ho rfl hlk rfl]
        refine ⟨_, rfl, rfl, ?_, ?_, ?_, ?_, ?_⟩
        · rw [lookupObj_insertObj_self]; rfl
        · exact fun k hk => lookupObj_insertObj_ne _ _ _ _ hk
        · exact fun k h => lookupObj_insertObj_isSome _ _ _ _ h
        · intro hnone; cases hnone
        · intro ex2 hex2; cases hex2; rfl

/-! ### Lemmas about the component loop -/

theorem componentsStep_append (fault : FaultSpec) (b : AppBundle) (g : Group) (w : Int)
    (xs ys : List Component) (gs : GroupStatus) (st : ClusterState)
    (gs1 : GroupStatus) (st1 : ClusterState)
    (h : componentsStep fault b g w xs gs st = ((gs1, none), st1)) :
    componentsStep fault b g w (xs ++ ys) gs st = componentsStep fault b g w ys gs1 st1 := by
  induction xs generalizing gs st with
  | nil =>
    simp only [componentsStep, Prod.mk.injEq] at h
    obtain ⟨⟨h1, -⟩, h2⟩ := h
    subst h1; subst h2
    simp
  | cons x xs ih =>
    simp only [componentsStep] at h ⊢
    cases hr : reconcileComponent fault b g x w st with
    | mk res st' =>
      obtain ⟨cs0, err⟩ := res
      rw [hr] at h
      cases err with
      | some e => simp at h
      | none =>
        simp only at h ⊢
        exact ih _ _ h

theorem componentsStep_frame (fault : FaultSpec) (b : AppBundle) (g : Group) (w : Int)
    (cs : List Component) (gs : GroupStatus) (st : ClusterState) :
    (componentsStep fault b g w cs gs st).2.bundle = st.bundle ∧
    ∃ d, (componentsStep fault b g w cs gs st).2.trace = st.trace ++ d ∧
      d.all isCompEvent = true := by
  induction cs generalizing gs st with
  | nil => exact ⟨rfl, [], by simp [componentsStep], rfl⟩
  | cons x xs ih =>
    obtain ⟨hb, ⟨d1, ht, hall⟩, -⟩ := rc_frame fault b g x w st
    simp only [componentsStep]
    cases hr : reconcileComponent fault b g x w st with
    | mk res st' =>
      obtain ⟨cs0, err⟩ := res
      rw [hr] at hb ht
      cases err with
      | some e => exact ⟨hb, d1, ht, hall⟩
      | none =>
        obtain ⟨ihb, d2, iht, ihall⟩ := ih _ st'
        refine ⟨ihb.trans hb, d1 ++ d2, ?_, ?_⟩
        · rw [iht, ht, List.append_assoc]
        · simp only [List.all_append, hall, ihall, Bool.and_self]

theorem componentsStep_noFault (b : AppBundle) (g : Group) (base : Int)
    (cs : List Component) (gs : GroupStatus) (st : ClusterState)
    (hres : ∀ c ∈ cs, (resolvedManifest? b g base c).isSome) :
    ∃ st',
      componentsStep noFault b g base cs gs st =
        (({ gs with componentStatuses :=
                      gs.componentStatuses ++ cs.map (deployedStatusOf b g base) },
          none), st') ∧
      st'.bundle = st.bundle ∧
      (∀ k, (lookupObj st.objs k).isSome → (lookupObj st'.objs k).isSome) ∧
      (∀ c ∈ cs, (lookupObj st'.objs (compKey b g base c)).isSome) ∧
      (∀ k, (∀ c ∈ cs, compKey b g base c ≠ k) →
        lookupObj st'.objs k = lookupObj st.objs k) := by
  induction cs generalizing gs st with
  | nil =>
    refine ⟨st, ?_, rfl, fun k h => h, by simp, fun k _ => rfl⟩
    simp [componentsStep]
  | cons c cst ih =>
    have hc := hres c (List.mem_cons_self c cst)
    obtain ⟨m2, hm2⟩ := Option.isSome_iff_exists.mp hc
    obtain ⟨st1, heq, hb, hkey, hne, hmono, -, -⟩ := rc_noFault b g c base st m2 hm2
    have hrest : ∀ x ∈ cst, (resolvedManifest? b g base x).isSome :=
      fun x hx => hres x (List.mem_cons_of_mem c hx)
    obtain ⟨st2, ih_eq, ih_b, ih_mono, ih_allkeys, ih_other⟩ :=
      ih { gs with componentStatuses := gs.componentStatuses ++ [deployedStatus c m2] } st1 hrest
    refine ⟨st2, ?_, ih_b.trans hb, fun k h => ih_mono k (hmono k h), ?_, ?_⟩
    · simp only [componentsStep]
      rw [heq]
      simp only at ih_eq ⊢
      rw [ih_eq]
      simp [deployedStatusOf, hm2, List.append_assoc]
    · intro x hx
      rcases List.mem_cons.mp hx with h | h
      · subst h
        have hx : (lookupObj st2.objs (keyOf m2)).isSome := ih_mono _ hkey
        simpa [compKey, hm2] using hx
      · exact ih_allkeys x h
    · intro k hk
      have h1 : ∀ x ∈ cst, compKey b g base x ≠ k :=
        fun x hx => hk x (List.mem_cons_of_mem c hx)
      have h2 : compKey b g base c ≠ k := hk c (List.mem_cons_self c cst)
      rw [ih_other k h1]
      apply hne
      intro hkk
      apply h2
      simpa [compKey, hm2] using hkk.symm ▸ rfl

theorem componentsStep_present (b : AppBundle) (g : Group) (base : Int)
    (cs : List Component) (gs : GroupStatus) (st : ClusterState)
    (hres : ∀ c ∈ cs, (resolvedManifest? b g base c).isSome)
    (hpres : ∀ c ∈ cs, (lookupObj st.objs (compKey b g base c)).isSome)
    (hdist : (cs.map (compKey b g base)).Nodup) :
    ∃ gsOut st' d,
      componentsStep noFault b g base cs gs st = ((gsOut, none), st') ∧
      st'.trace = st.trace ++ d ∧
      (∀ ev ∈ d, ∀ k, ev ≠ Event.createOp k) ∧
      (∀ c ∈ cs, Event.getOp (compKey b g base c) ∈ d ∧
        ∃ ex, lookupObj st.objs (compKey b g base c) = some ex ∧
          Event.updateOp (compKey b g base c) ex.resourceVersion ∈ d) := by
  induction cs generalizing gs st with
  | nil =>
    refine ⟨gs, st, [], by simp [componentsStep], by simp, by simp, by simp⟩
  | cons c cst ih =>
    have hc := hres c (List.mem_cons_self c cst)
    obtain ⟨m2, hm2⟩ := Option.isSome_iff_exists.mp hc
    have hkey : compKey b g base c = keyOf m2 := by simp [compKey, hm2]
    obtain ⟨ex, hex⟩ := Option.isSome_iff_exists.mp (hpres c (List.mem_cons_self c cst))
    obtain ⟨st1, heq, hb, hk1, hne, hmono, -, hupd⟩ := rc_noFault b g c base st m2 hm2
    have hex2 : lookupObj st.objs (keyOf m2) = some ex := hkey ▸ hex
    have htr1 : st1.trace = st.trace ++
        [.componentAttempt g.name c.name, .getOp (keyOf m2),
         .updateOp (keyOf m2) ex.resourceVersion] := hupd ex hex2
    have hnotmem : compKey b g base c ∉ cst.map (compKey b g base) :=
      (List.nodup_cons.mp hdist).1
    have hxkey : ∀ x ∈ cst, compKey b g base x ≠ keyOf m2 := by
      intro x hx hcontra
      apply hnotmem
      rw [← hkey] at hcontra
      exact hcontra ▸ List.mem_map_of_mem _ hx
    have hpres1 : ∀ x ∈ cst, (lookupObj st1.objs (compKey b g base x)).isSome := by
      intro x hx
      rw [hne _ (hxkey x hx)]
      exact hpres x (List.mem_cons_of_mem c hx)
    obtain ⟨gsOut, st2, d2, ih_eq, ih_tr, ih_nocreate, ih_mem⟩ :=
      ih _ st1 (fun x hx => hres x (List.mem_cons_of_mem c hx)) hpres1
        (List.nodup_cons.mp hdist).2
    refine ⟨gsOut, st2,
      [.componentAttempt g.name c.name, .getOp (keyOf m2),
       .updateOp (keyOf m2) ex.resourceVersion] ++ d2, ?_, ?_, ?_, ?_⟩
    · simp only [componentsStep]
      rw [heq]
      exact ih_eq
    · rw [ih_tr, htr1, List.append_assoc]
    · intro ev hev k
      rcases List.mem_append.mp hev with h | h
      · rcases List.mem_cons.mp h with rfl | h
        · simp
        rcases List.mem_cons.mp h with rfl | h
        · simp
        rcases List.mem_cons.mp h with rfl | h
        · simp
        · cases h
      · exact ih_nocreate ev h k
    · intro x hx
      rcases List.mem_cons.mp hx with rfl | hx
      · constructor
        · apply List.mem_append_left
          rw [hkey]
          simp
        · refine ⟨ex, hkey ▸ hex2, ?_⟩
          apply List.mem_append_left
          rw [hkey]
          simp
      · obtain ⟨hget, ex2, hex2m, hupd2⟩ := ih_mem x hx
        refine ⟨List.mem_append_right _ hget, ex2, ?_, List.mem_append_right _ hupd2⟩
        rw [← hne _ (hxkey x hx)]
        exact hex2m

/-! ### The component path reads the bundle only through name/namespace,
so its results are invariant under changes to the bundle status. -/

theorem resolvedManifest?_irrel (b : AppBundle) (s : AppBundleStatus) (g : Group)
    (base : Int) (c : Component) :
    resolvedManifest? { b with status := s } g base c = resolvedManifest? b g base c := rfl

theorem compKey_irrel (b : AppBundle) (s : AppBundleStatus) (g : Group)
    (base : Int) (c : Component) :
    compKey { b with status := s } g base c = compKey b g base c := rfl

theorem resolvedKey_irrel (b : AppBundle) (s : AppBundleStatus) (g : Group)
    (c : Component) :
    resolvedKey { b with status := s } g c = resolvedKey b g c := rfl

theorem expectedGS_irrel (b : AppBundle) (s : AppBundleStatus) (g : Group) :
    expectedGS { b with status := s } g = expectedGS b g := rfl

theorem reconcileComponent_irrel (fault : FaultSpec) (b : AppBundle)
    (s : AppBundleStatus) (g : Group) (c : Component) (w : Int) (st : ClusterState) :
    reconcileComponent fault { b with status := s } g c w st =
      reconcileComponent fault b g c w st := rfl

theorem componentsStep_irrel (fault : FaultSpec) (b : AppBundle) (s : AppBundleStatus)
    (g : Group) (w : Int) (cs : List Component) (gs : GroupStatus) (st : ClusterState) :
    componentsStep fault { b with status := s } g w cs gs st =
      componentsStep fault b g w cs gs st := by
  induction cs generalizing gs st with
  | nil => rfl
  | cons c rest ih =>
    simp only [componentsStep, reconcileComponent_irrel]
    cases reconcileComponent fault b g c w st with
    | mk res st' =>
      obtain ⟨cs0, err⟩ := res
      cases err with
      | some e => rfl
      | none => exact ih _ _

theorem reconcileGroup_irrel (fault : FaultSpec) (b : AppBundle) (s : AppBundleStatus)
    (g : Group) (st : ClusterState) :
    reconcileGroup fault { b with status := s } g st = reconcileGroup fault b g st := by
  simp only [reconcileGroup, componentsStep_irrel]

/-! ### Group-level lemmas -/

theorem reconcileGroup_noFault (b : AppBundle) (g : Group) (st : ClusterState)
    (hres : ∀ c ∈ g.components, (resolvedManifest? b g (g.order * 100) c).isSome) :
    ∃ st', reconcileGroup noFault b g st = ((expectedGS b g, none), st') ∧
      st'.bundle = st.bundle ∧
      (∀ k, (lookupObj st.objs k).isSome → (lookupObj st'.objs k).isSome) ∧
      (∀ c ∈ g.components, (lookupObj st'.objs (resolvedKey b g c)).isSome) ∧
      (∀ k, (∀ c ∈ g.components, resolvedKey b g c ≠ k) →
        lookupObj st'.objs k = lookupObj st.objs k) := by
  have hres' : ∀ c ∈ sortSlice (fun c : Component => c.order) g.components,
      (resolvedManifest? b g (g.order * 100) c).isSome :=
    fun c hc => hres c ((mem_sortSlice _ _ c).mp hc)
  obtain ⟨st', heq, hb, hmono, hkeys, hother⟩ :=
    componentsStep_noFault b g (g.order * 100)
      (sortSlice (fun c : Component => c.order) g.components) (initialGroupStatus g) st hres'
  refine ⟨st', ?_, hb, hmono, ?_, ?_⟩
  · simp only [reconcileGroup]
    rw [heq]
    simp [expectedGS, initialGroupStatus]
  · intro c hc
    exact hkeys c ((mem_sortSlice _ _ c).mpr hc)
  · intro k hk
    apply hother
    intro c hc
    exact hk c ((mem_sortSlice _ _ c).mp hc)

theorem reconcileGroup_frame (fault : FaultSpec) (b : AppBundle) (g : Group)
    (st : ClusterState) :
    (reconcileGroup fault b g st).2.bundle = st.bundle ∧
    ∃ d, (reconcileGroup fault b g st).2.trace = st.trace ++ d ∧
      d.all isCompEvent = true := by
  obtain ⟨hb, d, ht, hall⟩ :=
    componentsStep_frame fault b g (g.order * 100)
      (sortSlice (fun c : Component => c.order) g.components) (initialGroupStatus g) st
  simp only [reconcileGroup]
  cases hr : componentsStep fault b g (g.order * 100)
      (sortSlice (fun c : Component => c.order) g.components) (initialGroupStatus g) st with
  | mk res st' =>
    obtain ⟨gs0, err⟩ := res
    rw [hr] at hb ht
    cases err with
    | some e => exact ⟨hb, d, ht, hall⟩
    | none => exact ⟨hb, d, ht, hall⟩

theorem reconcileGroup_present (b : AppBundle) (g : Group) (st : ClusterState)
    (hres : ∀ c ∈ g.components, (resolvedManifest? b g (g.order * 100) c).isSome)
    (hpres : ∀ c ∈ g.components, (lookupObj st.objs (resolvedKey b g c)).isSome)
    (hdist : (g.components.map (resolvedKey b g)).Nodup) :
    ∃ gsOut st' d,
      reconcileGroup noFault b g st = ((gsOut, none), st') ∧
      st'.trace = st.trace ++ d ∧
      (∀ ev ∈ d, ∀ k, ev ≠ Event.createOp k) ∧
      (∀ c ∈ g.components, Event.getOp (resolvedKey b g c) ∈ d ∧
        ∃ ex, lookupObj st.objs (resolvedKey b g c) = some ex ∧
          Event.updateOp (resolvedKey b g c) ex.resourceVersion ∈ d) := by
  have hperm : (sortSlice (fun c : Component => c.order) g.components).Perm g.components :=
    sortSlice_perm _ _
  have hres' : ∀ c ∈ sortSlice (fun c : Component => c.order) g.components,
      (resolvedManifest? b g (g.order * 100) c).isSome :=
    fun c hc => hres c (hperm.mem_iff.mp hc)
  have hpres' : ∀ c ∈ sortSlice (fun c : Component => c.order) g.components,
      (lookupObj st.objs (compKey b g (g.order * 100) c)).isSome :=
    fun c hc => hpres c (hperm.mem_iff.mp hc)
  have hdist' : ((sortSlice (fun c : Component => c.order) g.components).map
      (compKey b g (g.order * 100))).Nodup :=
    ((hperm.map (compKey b g (g.order * 100))).nodup_iff).mpr hdist
  obtain ⟨gsOut, st', d, heq, htr, hnoc, hmem⟩ :=
    componentsStep_present b g (g.order * 100)
      (sortSlice (fun c : Component => c.order) g.components) (initialGroupStatus g) st
      hres' hpres' hdist'
  refine ⟨{ gsOut with
            phase := phaseDeployed
            message := "All components deployed successfully" }, st', d, ?_, htr, hnoc, ?_⟩
  · simp only [reconcileGroup]
    rw [heq]
  · intro c hc
    exact hmem c (hperm.mem_iff.mpr hc)

/-! ### Lemmas about the group loop -/

theorem appendGS_appendGS (b : AppBundle) (l1 l2 : List GroupStatus) :
    appendGS (appendGS b l1) l2 = appendGS b (l1 ++ l2) := by
  simp [appendGS, List.append_assoc]

theorem appendGS_nil (b : AppBundle) : appendGS b [] = b := by
  simp [appendGS]

theorem reconcileGroup_appendGS (fault : FaultSpec) (b : AppBundle)
    (l : List GroupStatus) (g : Group) (st : ClusterState) :
    reconcileGroup fault (appendGS b l) g st = reconcileGroup fault b g st :=
  reconcileGroup_irrel fault b _ g st

theorem groupsLoop_append (fault : FaultSpec) (xs ys : List Group) (b : AppBundle)
    (st : ClusterState) (b1 : AppBundle) (st1 : ClusterState)
    (h : groupsLoop fault xs b st = (none, b1, st1)) :
    groupsLoop fault (xs ++ ys) b st = groupsLoop fault ys b1 st1 := by
  induction xs generalizing b st with
  | nil =>
    simp only [groupsLoop, Prod.mk.injEq] at h
    obtain ⟨h1, h2⟩ := h.2
    subst h1; subst h2
    simp
  | cons g gl ih =>
    simp only [groupsLoop] at h ⊢
    cases hr : reconcileGroup fault b g st with
    | mk res st' =>
      obtain ⟨gs, err⟩ := res
      rw [hr] at h
      cases err with
      | some e => simp at h
      | none => exact ih _ _ h

theorem groupsLoop_frame (fault : FaultSpec) (gl : List Group) (b : AppBundle)
    (st : ClusterState) :
    (groupsLoop fault gl b st).2.2.bundle = st.bundle ∧
    ∃ d, (groupsLoop fault gl b st).2.2.trace = st.trace ++ d ∧
      d.all isCompEvent = true := by
  induction gl generalizing b st with
  | nil => exact ⟨rfl, [], by simp [groupsLoop], rfl⟩
  | cons g gl ih =>
    obtain ⟨hb, ⟨d1, ht, hall⟩⟩ := reconcileGroup_frame fault b g st
    simp only [groupsLoop]
    cases hr : reconcileGroup fault b g st with
    | mk res st' =>
      obtain ⟨gs, err⟩ := res
      rw [hr] at hb ht
      cases err with
      | some e => exact ⟨hb, d1, ht, hall⟩
      | none =>
        obtain ⟨ihb, d2, iht, ihall⟩ := ih _ st'
        refine ⟨ihb.trans hb, d1 ++ d2, ?_, ?_⟩
        · rw [iht, ht, List.append_assoc]
        · simp only [List.all_append, hall, ihall, Bool.and_self]

theorem groupsLoop_noFault (gl : List Group) (b : AppBundle) (st : ClusterState)
    (hres : ∀ g ∈ gl, ∀ c ∈ g.components, (resolvedManifest? b g (g.order * 100) c).isSome) :
    ∃ st', groupsLoop noFault gl b st = (none, appendGS b (gl.map (expectedGS b)), st') ∧
      st'.bundle = st.bundle ∧
      (∀ k, (lookupObj st.objs k).isSome → (lookupObj st'.objs k).isSome) ∧
      (∀ g ∈ gl, ∀ c ∈ g.components, (lookupObj st'.objs (resolvedKey b g c)).isSome) ∧
      (∀ k, (∀ g ∈ gl, ∀ c ∈ g.components, resolvedKey b g c ≠ k) →
        lookupObj st'.objs k = lookupObj st.objs k) := by
  induction gl generalizing b st with
  | nil =>
    refine ⟨st, ?_, rfl, fun k h => h, by simp, fun k _ => rfl⟩
    simp [groupsLoop, appendGS_nil]
  | cons g gl ih =>
    obtain ⟨st1, heq, hb, hmono, hkeys, hother⟩ :=
      reconcileGroup_noFault b g st (hres g (List.mem_cons_self g gl))
    have hres1 : ∀ g2 ∈ gl, ∀ c ∈ g2.components,
        (resolvedManifest? (appendGS b [expectedGS b g]) g2 (g2.order * 100) c).isSome :=
      fun g2 hg2 c hc => hres g2 (List.mem_cons_of_mem g hg2) c hc
    obtain ⟨st2, ih_eq, ih_b, ih_mono, ih_keys, ih_other⟩ :=
      ih (appendGS b [expectedGS b g]) st1 hres1
    refine ⟨st2, ?_, ih_b.trans hb, fun k h => ih_mono k (hmono k h), ?_, ?_⟩
    · simp only [groupsLoop]
      rw [heq]
      show groupsLoop noFault gl (appendGS b [expectedGS b g]) st1 =
        (none, appendGS b (List.map (expectedGS b) (g :: gl)), st2)
      rw [ih_eq, appendGS_appendGS]
      rfl
    · intro g2 hg2 c hc
      rcases List.mem_cons.mp hg2 with h | h
      · subst h
        have hx : ∀ c0 ∈ g2.components, resolvedKey b g2 c0 ≠ resolvedKey b g2 c →
            True := fun _ _ _ => trivial
        exact ih_mono _ (hkeys c hc)
      · exact ih_keys g2 h c hc
    · intro k hk
      have h1 : ∀ g2 ∈ gl, ∀ c ∈ g2.components,
          resolvedKey (appendGS b [expectedGS b g]) g2 c ≠ k :=
        fun g2 hg2 c hc => hk g2 (List.mem_cons_of_mem g hg2) c hc
      rw [ih_other k h1]
      exact hother k (fun c hc => hk g (List.mem_cons_self g gl) c hc)

theorem resolvedKey_appendGS (b : AppBundle) (l : List GroupStatus) (g : Group)
    (c : Component) : resolvedKey (appendGS b l) g c = resolvedKey b g c := rfl

theorem resolvedManifest?_appendGS (b : AppBundle) (l : List GroupStatus) (g : Group)
    (base : Int) (c : Component) :
    resolvedManifest? (appendGS b l) g base c = resolvedManifest? b g base c := rfl

theorem groupsLoop_present (gl : List Group) (b : AppBundle) (st : ClusterState)
    (hres : ∀ g ∈ gl, ∀ c ∈ g.components, (resolvedManifest? b g (g.order * 100) c).isSome)
    (hpres : ∀ g ∈ gl, ∀ c ∈ g.components, (lookupObj st.objs (resolvedKey b g c)).isSome)
    (hdist : ((gl.map (fun g => g.components.map (resolvedKey b g))).flatten).Nodup) :
    ∃ bOut st' d, groupsLoop noFault gl b st = (none, bOut, st') ∧
      st'.trace = st.trace ++ d ∧
      (∀ ev ∈ d, ∀ k, ev ≠ Event.createOp k) ∧
      (∀ g ∈ gl, ∀ c ∈ g.components, Event.getOp (resolvedKey b g c) ∈ d ∧
        ∃ ex, lookupObj st.objs (resolvedKey b g c) = some ex ∧
          Event.updateOp (resolvedKey b g c) ex.resourceVersion ∈ d) := by
  induction gl generalizing b st with
  | nil =>
    exact ⟨b, st, [], by simp [groupsLoop], by simp, by simp, by simp⟩
  | cons g gl ih =>
    have hjoin : ((List.map (fun g2 => g2.components.map (resolvedKey b g2)) (g :: gl)).flatten)
        = g.components.map (resolvedKey b g) ++
          (List.map (fun g2 => g2.components.map (resolvedKey b g2)) gl).flatten := by
      simp
    rw [hjoin] at hdist
    obtain ⟨hnd1, hnd2, hdisj⟩ := List.nodup_append.mp hdist
    obtain ⟨st1, heqA, hbA, hmonoA, hkeysA, hotherA⟩ :=
      reconcileGroup_noFault b g st (hres g (List.mem_cons_self g gl))
    obtain ⟨gsOut, st1', d1, heqB, htrB, hnocB, hmemB⟩ :=
      reconcileGroup_present b g st (hres g (List.mem_cons_self g gl))
        (hpres g (List.mem_cons_self g gl)) hnd1
    rw [heqA] at heqB
    have hst1 : st1' = st1 := (congrArg Prod.snd heqB).symm
    rw [hst1] at htrB
    have hother_tail : ∀ g2 ∈ gl, ∀ c ∈ g2.components,
        lookupObj st1.objs (resolvedKey b g2 c) = lookupObj st.objs (resolvedKey b g2 c) := by
      intro g2 hg2 c hc
      apply hotherA
      intro c0 hc0 hcontra
      apply hdisj (List.mem_map_of_mem _ hc0)
      rw [hcontra]
      have : resolvedKey b g2 c ∈ g2.components.map (resolvedKey b g2) :=
        List.mem_map_of_mem _ hc
      exact List.mem_flatten.mpr ⟨g2.components.map (resolvedKey b g2),
        List.mem_map_of_mem _ hg2, this⟩
    have hpres1 : ∀ g2 ∈ gl, ∀ c ∈ g2.components,
        (lookupObj st1.objs (resolvedKey b g2 c)).isSome := by
      intro g2 hg2 c hc
      rw [hother_tail g2 hg2 c hc]
      exact hpres g2 (List.mem_cons_of_mem g hg2) c hc
    obtain ⟨bOut, st2, d2, ih_eq, ih_tr, ih_noc, ih_mem⟩ :=
      ih (appendGS b [expectedGS b g]) st1
        (fun g2 hg2 c hc => hres g2 (List.mem_cons_of_mem g hg2) c hc)
        hpres1 hnd2
    refine ⟨bOut, st2, d1 ++ d2, ?_, ?_, ?_, ?_⟩
    · simp only [groupsLoop]
      rw [heqA]
      show groupsLoop noFault gl (appendGS b [expectedGS b g]) st1 = (none, bOut, st2)
      exact ih_eq
    · rw [ih_tr, htrB, List.append_assoc]
    · intro ev hev k
      rcases List.mem_append.mp hev with h | h
      · exact hnocB ev h k
      · exact ih_noc ev h k
    · intro g2 hg2 c hc
      rcases List.mem_cons.mp hg2 with h | h
      · subst h
        obtain ⟨hget, ex, hex, hupd⟩ := hmemB c hc
        exact ⟨List.mem_append_left _ hget, ex, hex, List.mem_append_left _ hupd⟩
      · obtain ⟨hget, ex, hex, hupd⟩ := ih_mem g2 h c hc
        refine ⟨List.mem_append_right _ hget, ex, ?_, List.mem_append_right _ hupd⟩
        rw [← hother_tail g2 h c hc]
        exact hex

/-! ### Reconcile-level lemmas -/

theorem Reconcile_fin (fault : FaultSpec) (st : ClusterState)
    (hfin : appBundleFinalizer ∈ st.bundle.finalizers) :
    Reconcile fault st = reconcileAfterFinalizer fault st.bundle st := by
  simp [Reconcile, hfin]

theorem rAF_live (fault : FaultSpec) (b : AppBundle) (st : ClusterState)
    (hlive : b.deletionTimestampIsZero = true) (hphase : b.status.phase ≠ "") :
    reconcileAfterFinalizer fault b st = reconcileMain fault b st := by
  simp [reconcileAfterFinalizer, hlive, hphase]

theorem reconcileMain_unfold (fault : FaultSpec) (b : AppBundle) (st : ClusterState) :
    reconcileMain fault b st =
      match groupsLoop fault (sortSlice (fun g : Group => g.order) b.spec.groups)
          (deployingInit b) st with
      | (some e, b', st'') => updateStatusWithError fault b' st'' e
      | (none, b', st'') => statusUpdate fault (markDeployed b') st'' := by
  simp only [reconcileMain, reconcilePorchPackages]
  cases hpi : b.spec.porchIntegration with
  | none => rfl
  | some p =>
    cases hp : p.enabled with
    | true => simp
    | false => simp

theorem statusUpdate_eqNone (fault : FaultSpec) (b : AppBundle) (st : ClusterState)
    (h : fault.statusUpdateFault = none) :
    statusUpdate fault b st =
      (none, { st with
               bundle := { st.bundle with status := b.status }
               trace := st.trace ++ [.bundleStatusUpdate] }) := by
  simp [statusUpdate, pushEvent, h]

theorem updateStatusWithError_eqNone (fault : FaultSpec) (b : AppBundle)
    (st : ClusterState) (e : String) (h : fault.statusUpdateFault = none) :
    updateStatusWithError fault b st e =
      (some e, { st with
                 bundle := { st.bundle with status := (markFailed b e).status }
                 trace := st.trace ++ [.bundleStatusUpdate] }) := by
  rw [updateStatusWithError, statusUpdate_eqNone fault (markFailed b e) st h]

theorem expectedGS_fun_irrel (b : AppBundle) (s : AppBundleStatus) :
    expectedGS { b with status := s } = expectedGS b :=
  funext fun _ => rfl

theorem reconcileMain_noFault (b : AppBundle) (st : ClusterState)
    (hres : ∀ g ∈ b.spec.groups, ∀ c ∈ g.components,
      (resolvedManifest? b g (g.order * 100) c).isSome) :
    ∃ st', reconcileMain noFault b st = (none, st') ∧
      st'.bundle = { st.bundle with status := finalStatus b } ∧
      st'.objs = (groupsLoop noFault (sortSlice (fun g : Group => g.order) b.spec.groups)
        (deployingInit b) st).2.2.objs ∧
      (∀ g ∈ b.spec.groups, ∀ c ∈ g.components,
        (lookupObj st'.objs (resolvedKey b g c)).isSome) ∧
      (∀ k, (lookupObj st.objs k).isSome → (lookupObj st'.objs k).isSome) := by
  have hperm : (sortSlice (fun g : Group => g.order) b.spec.groups).Perm b.spec.groups :=
    sortSlice_perm _ _
  have hres0 : ∀ g ∈ sortSlice (fun g : Group => g.order) b.spec.groups,
      ∀ c ∈ g.components,
      (resolvedManifest? (deployingInit b) g (g.order * 100) c).isSome :=
    fun g hg c hc => hres g (hperm.mem_iff.mp hg) c hc
  obtain ⟨st1, heq, hb, hmono, hkeys, -⟩ :=
    groupsLoop_noFault (sortSlice (fun g : Group => g.order) b.spec.groups)
      (deployingInit b) st hres0
  rw [reconcileMain_unfold, heq]
  dsimp only
  rw [statusUpdate_eqNone noFault _ st1 rfl]
  have hfun : expectedGS (deployingInit b) = expectedGS b := expectedGS_fun_irrel b _
  refine ⟨_, rfl, ?_, ?_, ?_, ?_⟩
  · rw [hb]
    have hstat : (markDeployed (appendGS (deployingInit b)
        ((sortSlice (fun g : Group => g.order) b.spec.groups).map
          (expectedGS (deployingInit b))))).status = finalStatus b := by
      simp [markDeployed, appendGS, deployingInit, finalStatus, hfun]
      exact fun a ha => rfl
    rw [hstat]
  · rfl
  · intro g hg c hc
    exact hkeys g (hperm.mem_iff.mpr hg) c hc
  · exact hmono

theorem Reconcile_noFault_success (st : ClusterState)
    (hfin : appBundleFinalizer ∈ st.bundle.finalizers)
    (hlive : st.bundle.deletionTimestampIsZero = true)
    (hres : ∀ g ∈ st.bundle.spec.groups, ∀ c ∈ g.components,
      (resolvedManifest? st.bundle g (g.order * 100) c).isSome) :
    ∃ st', Reconcile noFault st = (none, st') ∧
      st'.bundle = { st.bundle with status := finalStatus st.bundle } ∧
      (∀ g ∈ st.bundle.spec.groups, ∀ c ∈ g.components,
        (lookupObj st'.objs (resolvedKey st.bundle g c)).isSome) ∧
      (∀ k, (lookupObj st.objs k).isSome → (lookupObj st'.objs k).isSome) := by
  rw [Reconcile_fin noFault st hfin]
  by_cases hphase : st.bundle.status.phase = ""
  · simp only [reconcileAfterFinalizer]
    have hneg : ¬(st.bundle.deletionTimestampIsZero = false) := by
      rw [hlive]; decide
    rw [if_neg hneg, if_pos hphase]
    obtain ⟨st', heq, hbun, hobjs, hkeys, hmono⟩ :=
      reconcileMain_noFault
        { st.bundle with status := { st.bundle.status with phase := phasePending } }
        { st with
          bundle := { st.bundle with status := { st.bundle.status with phase := phasePending } }
          trace := st.trace ++ [.bundleStatusUpdate] }
        (fun g hg c hc => hres g hg c hc)
    refine ⟨st', ?_, ?_, fun g hg c hc => hkeys g hg c hc, fun k h => hmono k h⟩
    · exact heq
    · rw [hbun]
      rfl
  · rw [rAF_live noFault st.bundle st hlive hphase]
    obtain ⟨st', heq, hbun, -, hkeys, hmono⟩ := reconcileMain_noFault st.bundle st hres
    exact ⟨st', heq, hbun, hkeys, hmono⟩

theorem flatten_perm {l1 l2 : List (List α)} (h : l1.Perm l2) :
    l1.flatten.Perm l2.flatten := by
  induction h with
  | nil => rfl
  | cons x h ih =>
    simp only [List.flatten_cons]
    exact ih.append_left x
  | swap x y l =>
    simp only [List.flatten_cons]
    have h1 : (y ++ x).Perm (x ++ y) := List.perm_append_comm
    simpa [List.append_assoc] using h1.append_right l.flatten
  | trans h1 h2 ih1 ih2 => exact ih1.trans ih2

theorem finalStatus_idem (b : AppBundle) :
    finalStatus { b with status := finalStatus b } = finalStatus b := by
  simp [finalStatus, setStatusCondition_idem, expectedGS_fun_irrel]

theorem compEvent_live (d : List Event) (h : d.all isCompEvent = true) :
    d.all isLiveEvent = true := by
  rw [List.all_eq_true] at h ⊢
  intro e he
  have h2 := h e he
  simp only [isLiveEvent, Bool.or_eq_true]
  exact Or.inl h2

theorem statusUpdate_frame (fault : FaultSpec) (b : AppBundle) (st : ClusterState) :
    (statusUpdate fault b st).2.bundle =
      { st.bundle with status := (statusUpdate fault b st).2.bundle.status } ∧
    (statusUpdate fault b st).2.trace = st.trace ++ [.bundleStatusUpdate] ∧
    (statusUpdate fault b st).2.objs = st.objs := by
  cases h : fault.statusUpdateFault with
  | some e => simp [statusUpdate, pushEvent, h]
  | none => simp [statusUpdate, pushEvent, h]

theorem updateStatusWithError_frame (fault : FaultSpec) (b : AppBundle)
    (st : ClusterState) (e : String) :
    (updateStatusWithError fault b st e).2.bundle =
      { st.bundle with status := (updateStatusWithError fault b st e).2.bundle.status } ∧
    (updateStatusWithError fault b st e).2.trace = st.trace ++ [.bundleStatusUpdate] ∧
    (updateStatusWithError fault b st e).2.objs = st.objs := by
  obtain ⟨h1, h2, h3⟩ := statusUpdate_frame fault (markFailed b e) st
  simp only [updateStatusWithError]
  cases hr : statusUpdate fault (markFailed b e) st with
  | mk err st' =>
    rw [hr] at h1 h2 h3
    cases err with
    | some se => exact ⟨h1, h2, h3⟩
    | none => exact ⟨h1, h2, h3⟩

theorem reconcileMain_frame (fault : FaultSpec) (b : AppBundle) (st : ClusterState) :
    (reconcileMain fault b st).2.bundle =
      { st.bundle with status := (reconcileMain fault b st).2.bundle.status } ∧
    ∃ d, (reconcileMain fault b st).2.trace = st.trace ++ d ∧
      d.all isLiveEvent = true := by
  rw [reconcileMain_unfold]
  obtain ⟨hgb, dg, hgt, hgall⟩ :=
    groupsLoop_frame fault (sortSlice (fun g : Group => g.order) b.spec.groups)
      (deployingInit b) st
  cases hr : groupsLoop fault (sortSlice (fun g : Group => g.order) b.spec.groups)
      (deployingInit b) st with
  | mk err rest =>
    obtain ⟨b', st1⟩ := rest
    rw [hr] at hgb hgt
    cases err with
    | some e =>
      obtain ⟨h1, h2, h3⟩ := updateStatusWithError_frame fault b' st1 e
      refine ⟨?_, dg ++ [.bundleStatusUpdate], ?_, ?_⟩
      · rw [h1, hgb]
      · rw [h2, hgt, List.append_assoc]
      · simp only [List.all_append, compEvent_live dg hgall, Bool.and_self]
        simp [isLiveEvent]
    | none =>
      obtain ⟨h1, h2, h3⟩ := statusUpdate_frame fault (markDeployed b') st1
      refine ⟨?_, dg ++ [.bundleStatusUpdate], ?_, ?_⟩
      · rw [h1, hgb]
      · rw [h2, hgt, List.append_assoc]
      · simp only [List.all_append, compEvent_live dg hgall, Bool.and_self]
        simp [isLiveEvent]

theorem Reconcile_frame_live (fault : FaultSpec) (st : ClusterState)
    (hfin : appBundleFinalizer ∈ st.bundle.finalizers)
    (hlive : st.bundle.deletionTimestampIsZero = true) :
    (Reconcile fault st).2.bundle =
      { st.bundle with status := (Reconcile fault st).2.bundle.status } ∧
    ∃ d, (Reconcile fault st).2.trace = st.trace ++ d ∧
      d.all isLiveEvent = true := by
  rw [Reconcile_fin fault st hfin]
  simp only [reconcileAfterFinalizer]
  have hneg : ¬(st.bundle.deletionTimestampIsZero = false) := by
    rw [hlive]; decide
  rw [if_neg hneg]
  by_cases hphase : st.bundle.status.phase = ""
  · rw [if_pos hphase]
    obtain ⟨h1, h2, h3⟩ := statusUpdate_frame fault
      { st.bundle with status := { st.bundle.status with phase := phasePending } } st
    cases hr : statusUpdate fault
        { st.bundle with status := { st.bundle.status with phase := phasePending } } st with
    | mk err st1 =>
      rw [hr] at h1 h2 h3
      cases err with
      | some e => exact ⟨h1, [.bundleStatusUpdate], h2, rfl⟩
      | none =>
        obtain ⟨m1, dm, m2, m3⟩ := reconcileMain_frame fault
          { st.bundle with status := { st.bundle.status with phase := phasePending } } st1
        refine ⟨?_, [.bundleStatusUpdate] ++ dm, ?_, ?_⟩
        · rw [m1, h1]
        · rw [m2, h2]
          simp [List.append_assoc]
        · simp only [List.all_append, m3, Bool.and_true]
          simp [isLiveEvent]
  · rw [if_neg hphase]
    exact reconcileMain_frame fault st.bundle st

theorem Reconcile_deleting (fault : FaultSpec) (st : ClusterState)
    (hfin : appBundleFinalizer ∈ st.bundle.finalizers)
    (hdel : st.bundle.deletionTimestampIsZero = false)
    (hbf : fault.bundleUpdateFault = none) :
    Reconcile fault st =
      (none,
       { objs := st.objs
         nextRV := st.nextRV
         bundle := { st.bundle with
           finalizers := st.bundle.finalizers.filter (fun f => f ≠ appBundleFinalizer) }
         trace := st.trace ++ [.finalizeCall, .bundleUpdate] }) := by
  rw [Reconcile_fin fault st hfin]
  simp only [reconcileAfterFinalizer, hdel, if_pos rfl, if_pos hfin, finalizeAppBundle,
    bundleMainUpdate, pushEvent, hbf]
  simp [List.append_assoc]

theorem Reconcile_noFault_present (st : ClusterState)
    (hfin : appBundleFinalizer ∈ st.bundle.finalizers)
    (hlive : st.bundle.deletionTimestampIsZero = true)
    (hphase : st.bundle.status.phase ≠ "")
    (hres : ∀ g ∈ st.bundle.spec.groups, ∀ c ∈ g.components,
      (resolvedManifest? st.bundle g (g.order * 100) c).isSome)
    (hpres : ∀ g ∈ st.bundle.spec.groups, ∀ c ∈ g.components,
      (lookupObj st.objs (resolvedKey st.bundle g c)).isSome)
    (hdist : ((st.bundle.spec.groups.map
        (fun g => g.components.map (resolvedKey st.bundle g))).flatten).Nodup) :
    ∃ st' d, Reconcile noFault st = (none, st') ∧
      st'.trace = st.trace ++ d ∧
      (∀ ev ∈ d, ∀ k, ev ≠ Event.createOp k) ∧
      (∀ g ∈ st.bundle.spec.groups, ∀ c ∈ g.components,
        Event.getOp (resolvedKey st.bundle g c) ∈ d ∧
        ∃ ex, lookupObj st.objs (resolvedKey st.bundle g c) = some ex ∧
          Event.updateOp (resolvedKey st.bundle g c) ex.resourceVersion ∈ d) := by
  rw [Reconcile_fin noFault st hfin, rAF_live noFault st.bundle st hlive hphase,
    reconcileMain_unfold]
  have hperm : (sortSlice (fun g : Group => g.order) st.bundle.spec.groups).Perm
      st.bundle.spec.groups := sortSlice_perm _ _
  have hdist2 : (((sortSlice (fun g : Group => g.order) st.bundle.spec.groups).map
      (fun g => g.components.map (resolvedKey st.bundle g))).flatten).Nodup := by
    have hp2 := flatten_perm (hperm.map (fun g => g.components.map (resolvedKey st.bundle g)))
    exact hp2.nodup_iff.mpr hdist
  obtain ⟨bOut, st1, d1, heq, htr, hnoc, hmem⟩ :=
    groupsLoop_present (sortSlice (fun g : Group => g.order) st.bundle.spec.groups)
      (deployingInit st.bundle) st
      (fun g hg c hc => hres g (hperm.mem_iff.mp hg) c hc)
      (fun g hg c hc => hpres g (hperm.mem_iff.mp hg) c hc)
      hdist2
  rw [heq]
  dsimp only
  rw [statusUpdate_eqNone noFault _ st1 rfl]
  refine ⟨_, d1 ++ [.bundleStatusUpdate], rfl, ?_, ?_, ?_⟩
  · simp only []
    rw [htr, List.append_assoc]
  · intro ev hev k
    rcases List.mem_append.mp hev with h | h
    · exact hnoc ev h k
    · rcases List.mem_cons.mp h with rfl | h
      · simp
      · cases h
  · intro g hg c hc
    obtain ⟨hget, ex, hex, hupd⟩ := hmem g (hperm.mem_iff.mpr hg) c hc
    exact ⟨List.mem_append_left _ hget, ex, hex, List.mem_append_left _ hupd⟩

/-- The resolved manifest of a component of a bundle with a non-empty
namespace never has an empty namespace: the template either named one or
the bundle default was stamped in (controller lines 236-238). -/
theorem prepareObj_ns (b : AppBundle) (g : Group) (c : Component) (w : Int)
    (m : Manifest) (hb : b.ns ≠ "") (hm : prepareObj b g c w = .ok m) :
    m.ns ≠ "" := by
  cases ht : c.template with
  | error e => simp [prepareObj, ht] at hm
  | ok obj =>
    simp only [prepareObj, ht] at hm
    by_cases hns : obj.ns = "" ∧ b.ns ≠ ""
    · rw [if_pos hns] at hm
      cases hm
      exact hb
    · rw [if_neg hns] at hm
      cases hm
      simp only [not_and] at hns
      intro hc
      exact (hns hc) hb

/-! ### Claim theorems -/

/-- C1 counterexample: two groups, each with fewer than 100 components
and with `g1.Order < g2.Order`, whose sync waves are NOT ordered — the
single component of the lower group has `Order = 150`, so its wave
`0*100+150` is not below the higher group's wave `1*100+0`.  The claim's
premise bounds the number of components, but the wave formula depends on
the component `Order` values, which are not bounded by the component
count. -/
theorem c1_wave_counterexample :
    c1g1.components.length < 100 ∧ c1g2.components.length < 100 ∧
    c1g1.order < c1g2.order ∧
    (∃ c1 ∈ c1g1.components, ∃ c2 ∈ c1g2.components,
      ¬(syncWave c1g1 c1 < syncWave c1g2 c2)) := by
  refine ⟨by decide, by decide, by decide, ?_⟩
  refine ⟨plainComponent "big" 150 (plainManifest "v1" "ConfigMap" "big" "default"),
    by decide, plainComponent "zero" 0 (plainManifest "v1" "Service" "zero" "default"),
    by decide, by decide⟩

/-- C1 amended: with `g1.Order < g2.Order`, every component of `g1` of
`Order < 100` gets a strictly smaller sync wave than every component of
`g2` of non-negative `Order` (wave = group.Order * 100 + component.Order,
controller lines 178 and 215).  The premise is on component orders, not
on the component count. -/
theorem c1_wave_separation (g1 g2 : Group) (c1 c2 : Component)
    (hc1 : c1 ∈ g1.components) (hc2 : c2 ∈ g2.components)
    (hord : g1.order < g2.order)
    (hlt : ∀ c ∈ g1.components, c.order < 100)
    (hnn : ∀ c ∈ g2.components, 0 ≤ c.order) :
    syncWave g1 c1 < syncWave g2 c2 := by
  have h1 := hlt c1 hc1
  have h2 := hnn c2 hc2
  simp only [syncWave]
  omega

/-- Witness for the amended C1 statement at the test bundle's two groups. -/
theorem c1_wave_separation_witness :
    demoInfra.order < demoApp.order ∧
    syncWave demoInfra cfgComponent < syncWave demoApp svcComponent := by
  refine ⟨by decide, ?_⟩
  exact c1_wave_separation demoInfra demoApp cfgComponent svcComponent
    (by decide) (by decide) (by decide) (by decide) (by decide)

/-- C8 counterexample: the claim says equal-Order groups are processed
in input order; but `sort.Slice` promises only `sortSliceContract`
(a permutation, non-decreasing under the less function — the Go
documentation explicitly says the sort is not guaranteed to be stable),
and the swapped order of two equal-Order groups also satisfies that
contract.  Hence input order for ties is not a consequence of the
code. -/
theorem c8_stability_counterexample :
    sortSliceContract (fun g : Group => g.order) [c8gA, c8gB] [c8gB, c8gA] ∧
    [c8gB, c8gA] ≠ [c8gA, c8gB] := by
  refine ⟨⟨List.Perm.swap c8gB c8gA [], by decide⟩, by decide⟩

/-- C8 amended: the orchestrator's sorts satisfy the `sort.Slice`
contract — groups are processed in ascending `group.Order` and
components in ascending `component.Order`, as a permutation of the
input; the relative order of entries with equal `Order` is unspecified
(`sort.Slice` is not stable). -/
theorem c8_ascending_order (groups : List Group) (comps : List Component) :
    sortSliceContract (fun g : Group => g.order) groups
      (sortSlice (fun g : Group => g.order) groups) ∧
    sortSliceContract (fun c : Component => c.order) comps
      (sortSlice (fun c : Component => c.order) comps) :=
  ⟨⟨(sortSlice_perm _ _).symm, sortSlice_pairwise _ _⟩,
   ⟨(sortSlice_perm _ _).symm, sortSlice_pairwise _ _⟩⟩

/-- C10: the component status returned by `reconcileComponent` carries a
resource reference iff its phase is Deployed; every failure path returns
phase Failed with no reference and a non-nil error, and the success path
sets the reference to the resolved apiVersion/kind/name/namespace. -/
theorem c10_resourceRef_iff_deployed (fault : FaultSpec) (b : AppBundle) (g : Group)
    (c : Component) (w : Int) (st : ClusterState) :
    ((reconcileComponent fault b g c w st).1.1.phase = phaseDeployed ∨
      (reconcileComponent fault b g c w st).1.1.phase = phaseFailed) ∧
    ((reconcileComponent fault b g c w st).1.1.resourceRef ≠ none ↔
      (reconcileComponent fault b g c w st).1.1.phase = phaseDeployed) ∧
    ((reconcileComponent fault b g c w st).1.1.phase = phaseFailed →
      (reconcileComponent fault b g c w st).1.1.resourceRef = none ∧
      (reconcileComponent fault b g c w st).1.2 ≠ none) ∧
    ((reconcileComponent fault b g c w st).1.1.phase = phaseDeployed →
      (reconcileComponent fault b g c w st).1.2 = none ∧
      ∃ m m2, prepareObj b g c w = .ok m ∧ setControllerReference b m = .ok m2 ∧
        (reconcileComponent fault b g c w st).1.1.resourceRef =
          some { apiVersion := m2.apiVersion, kind := m2.kind,
                 name := m2.name, ns := m2.ns }) := by
  rcases rc_classify fault b g c w st with
    ⟨hph, herr, m, m2, hm, ho, hcs⟩ | ⟨e, mp, herr, hph, href, hmsg⟩
  · have hne : phaseDeployed ≠ phaseFailed := by decide
    refine ⟨Or.inl hph, ?_, ?_, ?_⟩
    · constructor
      · intro _; exact hph
      · intro _; rw [hcs]; simp [deployedStatus]
    · intro hf; rw [hph] at hf; exact absurd hf hne
    · intro _
      refine ⟨herr, m, m2, hm, ho, ?_⟩
      rw [hcs]; rfl
  · have hne : phaseFailed ≠ phaseDeployed := by decide
    refine ⟨Or.inr hph, ?_, ?_, ?_⟩
    · constructor
      · intro hsome; exact absurd href hsome
      · intro hd; rw [hph] at hd; exact absurd hd hne
    · intro _; exact ⟨href, by rw [herr]; simp⟩
    · intro hd; rw [hph] at hd; exact absurd hd hne

/-- Witness for C10 at the test bundle's ConfigMap component: the
success path yields phase Deployed with a non-nil resource reference. -/
theorem c10_resourceRef_iff_deployed_witness :
    (reconcileComponent noFault demoBundle demoInfra cfgComponent 0 demoState).1.1.resourceRef
      ≠ none := by
  have h := c10_resourceRef_iff_deployed noFault demoBundle demoInfra cfgComponent 0 demoState
  exact h.2.1.mpr (by rfl)

/-- C4 counterexample: a Job component whose status never gains a
Complete=True condition (the embedding carries no status conditions at
all, because the controller never reads any) is marked Deployed with the
success message immediately after the apply — there is no readiness
poll, no timeout, and the component does not end Failed as the claim
states. -/
theorem c4_job_counterexample :
    (reconcileComponent noFault demoBundle jobGroup jobComponent 100 demoState).1.1.phase =
      phaseDeployed ∧
    (reconcileComponent noFault demoBundle jobGroup jobComponent 100 demoState).1.1.message =
      "Resource deployed successfully" ∧
    (reconcileComponent noFault demoBundle jobGroup jobComponent 100 demoState).1.1.phase ≠
      phaseFailed ∧
    (reconcileComponent noFault demoBundle jobGroup jobComponent 100 demoState).1.2 = none := by
  exact ⟨rfl, rfl, by decide, rfl⟩

/-- C4 amended: after applying a resource the engine performs no
readiness wait whatsoever — any component (a Job in particular) whose
template parses, whose owner reference succeeds, and whose client
operations do not fault is immediately marked Deployed, regardless of
the resource's runtime status. -/
theorem c4_no_readiness_wait (fault : FaultSpec) (b : AppBundle) (g : Group)
    (c : Component) (w : Int) (st : ClusterState) (m m2 : Manifest)
    (hp : prepareObj b g c w = .ok m) (ho : setControllerReference b m = .ok m2)
    (hg : fault.getFault (keyOf m2) = none)
    (hc : fault.createFault (keyOf m2) = none)
    (hu : fault.updateFault (keyOf m2) = none) :
    (reconcileComponent fault b g c w st).1.1.phase = phaseDeployed ∧
    (reconcileComponent fault b g c w st).1.2 = none ∧
    (reconcileComponent fault b g c w st).1.1.message = "Resource deployed successfully" := by
  cases hlk : lookupObj st.objs (keyOf m2) with
  | none =>
    rw [rc_create fault b g c w st m m2 hp ho hg hlk hc]
    exact ⟨rfl, rfl, rfl⟩
  | some ex =>
    rw [rc_update fault b g c w st m m2 ex hp ho hg hlk hu]
    exact ⟨rfl, rfl, rfl⟩

/-- Witness for the amended C4 statement: the concrete Job component is
applied and immediately Deployed. -/
theorem c4_no_readiness_wait_witness :
    (reconcileComponent noFault demoBundle jobGroup jobComponent 100 demoState).1.1.phase =
      phaseDeployed := by
  have h := c4_no_readiness_wait noFault demoBundle jobGroup jobComponent 100 demoState
    ((prepareObj demoBundle jobGroup jobComponent 100).toOption.getD emptyManifest)
    ((resolvedManifest? demoBundle jobGroup 100 jobComponent).getD emptyManifest)
    (by rfl) (by rfl) rfl rfl rfl
  exact h.1

/-- C6 counterexample: a component whose resolved namespace differs from
the bundle's namespace does NOT proceed with the owner reference silently
omitted — `SetControllerReference` rejects the cross-namespace owner and
the component is marked Failed with that error. -/
theorem c6_cross_namespace_counterexample :
    (reconcileComponent noFault demoBundle crossNsGroup crossNsComponent 0 demoState).1.1.phase =
      phaseFailed ∧
    (reconcileComponent noFault demoBundle crossNsGroup crossNsComponent 0 demoState).1.2 ≠
      none ∧
    (reconcileComponent noFault demoBundle crossNsGroup crossNsComponent 0 demoState).1.1.message =
      "Failed to set owner reference: cross-namespace owner references are disallowed" := by
  exact ⟨rfl, by decide, rfl⟩

/-- C6 amended: the controller attempts the owner reference on every
manifest unconditionally (controller line 241).  When the resolved
namespace equals the bundle's (non-empty) namespace and no other
controller owns the object, the reference to the bundle is set; when the
resolved namespace differs, the owner-reference call fails and the
component is marked Failed — it is not silently omitted and
reconciliation of the component does not proceed. -/
theorem c6_owner_reference_policy (fault : FaultSpec) (b : AppBundle) (g : Group)
    (c : Component) (w : Int) (st : ClusterState) (m : Manifest)
    (hm : prepareObj b g c w = .ok m) (hb : b.ns ≠ "") :
    (m.ns = b.ns → m.ownerRefs.find? (fun x => x.controller) = none →
      setControllerReference b m =
        .ok { m with ownerRefs := upsertOwnerRef m.ownerRefs (controllerRef b) }) ∧
    (m.ns ≠ b.ns →
      (reconcileComponent fault b g c w st).1.1.phase = phaseFailed ∧
      (reconcileComponent fault b g c w st).1.2 =
        some "cross-namespace owner references are disallowed" ∧
      (reconcileComponent fault b g c w st).1.1.message =
        "Failed to set owner reference: cross-namespace owner references are disallowed") := by
  have hns : m.ns ≠ "" := prepareObj_ns b g c w m hb hm
  constructor
  · intro heq hfind
    have h1 : ¬(b.ns ≠ "" ∧ m.ns = "") := fun h => hns h.2
    have h2 : ¬(b.ns ≠ "" ∧ m.ns ≠ b.ns) := fun h => h.2 heq
    simp only [setControllerReference, if_neg h1, if_neg h2, hfind]
  · intro hne
    have herr : setControllerReference b m =
        .error "cross-namespace owner references are disallowed" := by
      have h1 : ¬(b.ns ≠ "" ∧ m.ns = "") := fun h => hns h.2
      have h2 : b.ns ≠ "" ∧ m.ns ≠ b.ns := ⟨hb, hne⟩
      simp only [setControllerReference, if_neg h1, if_pos h2]
    rw [rc_owner_err fault b g c w st m _ hm herr]
    exact ⟨rfl, rfl, rfl⟩

/-- Witness for the amended C6 statement: the cross-namespace component
fails with the owner-reference error. -/
theorem c6_owner_reference_policy_witness :
    (reconcileComponent noFault demoBundle crossNsGroup crossNsComponent 0 demoState).1.2 =
      some "cross-namespace owner references are disallowed" := by
  have h := c6_owner_reference_policy noFault demoBundle crossNsGroup crossNsComponent 0
    demoState ((prepareObj demoBundle crossNsGroup crossNsComponent 0).toOption.getD emptyManifest)
    (by rfl) (by decide)
  exact (h.2 (by decide)).2.1

/-- C5 counterexample: a bundle marked for deletion with the finalizer,
declaring a cluster-scoped Namespace component whose object exists in
the cluster.  The pass removes the finalizer, but issues no delete at
all: the Namespace object is still stored afterwards and the trace holds
no delete operation — contradicting the claimed reverse-order explicit
deletion. -/
theorem c5_finalizer_counterexample :
    (Reconcile noFault c5State).1 = none ∧
    lookupObj (Reconcile noFault c5State).2.objs c5nsKey = some c5nsObj ∧
    (∀ ev ∈ (Reconcile noFault c5State).2.trace, ∀ k, ev ≠ Event.deleteOp k) ∧
    appBundleFinalizer ∉ (Reconcile noFault c5State).2.bundle.finalizers := by
  refine ⟨rfl, rfl, ?_, by decide⟩
  intro ev hev k
  have htr : (Reconcile noFault c5State).2.trace =
      [Event.finalizeCall, Event.bundleUpdate] := rfl
  rw [htr] at hev
  rcases List.mem_cons.mp hev with rfl | hev
  · simp
  rcases List.mem_cons.mp hev with rfl | hev
  · simp
  · cases hev

/-- C5 amended: when a bundle marked for deletion still carries the
finalizer token, `finalizeAppBundle` runs as a no-op — no resource of
any component is deleted (cleanup is left to owner-reference garbage
collection), the cluster store is untouched, and the trace shows exactly
the finalize call followed by the main-object update that removes the
finalizer token. -/
theorem c5_finalizer_noop (fault : FaultSpec) (st : ClusterState)
    (hfin : appBundleFinalizer ∈ st.bundle.finalizers)
    (hdel : st.bundle.deletionTimestampIsZero = false)
    (hbf : fault.bundleUpdateFault = none) :
    ∃ st', Reconcile fault st = (none, st') ∧
      st'.objs = st.objs ∧
      st'.trace = st.trace ++ [.finalizeCall, .bundleUpdate] ∧
      st'.bundle.finalizers =
        st.bundle.finalizers.filter (fun f => f ≠ appBundleFinalizer) ∧
      st'.bundle.spec = st.bundle.spec ∧
      st'.bundle.status = st.bundle.status := by
  rw [Reconcile_deleting fault st hfin hdel hbf]
  exact ⟨_, rfl, rfl, rfl, rfl, rfl, rfl⟩

/-- Witness for the amended C5 statement at the concrete deleted bundle:
the finalizer is removed without any deletion. -/
theorem c5_finalizer_noop_witness :
    ∃ st', Reconcile noFault c5State = (none, st') ∧
      st'.objs = c5State.objs ∧
      st'.trace = c5State.trace ++ [.finalizeCall, .bundleUpdate] ∧
      st'.bundle.finalizers =
        c5State.bundle.finalizers.filter (fun f => f ≠ appBundleFinalizer) ∧
      st'.bundle.spec = c5State.bundle.spec ∧
      st'.bundle.status = c5State.bundle.status :=
  c5_finalizer_noop noFault c5State (by decide) (by decide) rfl

/-- C7, evaluating the code at the failing input: a bundle with Porch
integration enabled and a packaged component whose produced resource is
a ConfigMap (no recognizable workload kind).  The pass succeeds, but the
cluster afterwards holds exactly the component's own template object —
no gating wait Job and no package-variant request were created, because
`reconcilePorchPackages` is an explicit TODO no-op.  This contradicts
the claim (and the repository's own wait-jobs document, which states the
controller always injects a gate Job). -/
theorem c7_porch_gate_missing :
    (Reconcile noFault porchState).1 = none ∧
    (Reconcile noFault porchState).2.objs.length = 1 ∧
    (∀ p ∈ (Reconcile noFault porchState).2.objs,
      p.1.kind ≠ "Job" ∧ p.1.kind ≠ "PackageVariant") ∧
    (Reconcile noFault porchState).2.bundle.status.phase = phaseDeployed := by
  exact ⟨rfl, rfl, by decide, rfl⟩

/-- C9 counterexample: a live bundle that does not yet carry the
finalizer.  The very first pass performs a main-object update — it
persists the finalizer, a non-status field — so the claim that a live
pass persists only the Status sub-resource fails. -/
theorem c9_spec_write_counterexample :
    Event.bundleUpdate ∈ (Reconcile noFault c9State).2.trace ∧
    c9State.bundle.finalizers = [] ∧
    (Reconcile noFault c9State).2.bundle.finalizers = [appBundleFinalizer] ∧
    c9State.bundle.deletionTimestampIsZero = true := by
  exact ⟨by decide, rfl, rfl, rfl⟩

/-- C9 amended: once the finalizer is already present, a pass over a
live bundle mutates the stored bundle only in its Status sub-resource
(every other field is preserved, in particular the Spec), and the trace
gains only component operations and status-subresource writes — never a
main-object update and never a delete. -/
theorem c9_status_only_writes (fault : FaultSpec) (st : ClusterState)
    (hfin : appBundleFinalizer ∈ st.bundle.finalizers)
    (hlive : st.bundle.deletionTimestampIsZero = true) :
    (Reconcile fault st).2.bundle =
      { st.bundle with status := (Reconcile fault st).2.bundle.status } ∧
    (Reconcile fault st).2.bundle.spec = st.bundle.spec ∧
    ∃ d, (Reconcile fault st).2.trace = st.trace ++ d ∧
      ∀ ev ∈ d, ev ≠ Event.bundleUpdate ∧ ∀ k, ev ≠ Event.deleteOp k := by
  obtain ⟨hb, d, ht, hall⟩ := Reconcile_frame_live fault st hfin hlive
  refine ⟨hb, ?_, d, ht, ?_⟩
  · rw [hb]
  · intro ev hev
    have h2 : isLiveEvent ev = true := List.all_eq_true.mp hall ev hev
    cases ev <;> simp_all [isLiveEvent, isCompEvent]

/-- Witness for the amended C9 statement at the test bundle: the pass
changes the stored bundle only in its status. -/
theorem c9_status_only_writes_witness :
    (Reconcile noFault demoState).2.bundle =
      { demoState.bundle with status := (Reconcile noFault demoState).2.bundle.status } ∧
    (Reconcile noFault demoState).2.bundle.spec = demoState.bundle.spec := by
  have h := c9_status_only_writes noFault demoState (by decide) rfl
  exact ⟨h.1, h.2.1⟩

/-- C2: whenever reconciling a component returns an error — after a
prefix `pre` of sorted groups and a prefix `cpre` of the failing group's
sorted components succeeded — the component status is Failed with the
error in its message and no resource reference, the group status is
Failed with the wrapping message, the persisted bundle status is Failed
with the raw error message, and nothing later runs: the failing pass's
trace is exactly the trace up to the failing component plus the single
terminal status write. -/
theorem c2_error_propagation (fault : FaultSpec) (st0 : ClusterState)
    (hfin : appBundleFinalizer ∈ st0.bundle.finalizers)
    (hlive : st0.bundle.deletionTimestampIsZero = true)
    (hphase : st0.bundle.status.phase ≠ "")
    (hsuf : fault.statusUpdateFault = none)
    (pre post : List Group) (g : Group)
    (hsplit : sortSlice (fun g : Group => g.order) st0.bundle.spec.groups =
      pre ++ g :: post)
    (b2 : AppBundle) (st2 : ClusterState)
    (hpre : groupsLoop fault pre (deployingInit st0.bundle) st0 = (none, b2, st2))
    (cpre cpost : List Component) (c : Component)
    (hcsplit : sortSlice (fun c : Component => c.order) g.components =
      cpre ++ c :: cpost)
    (gs2 : GroupStatus) (st3 : ClusterState)
    (hcpre : componentsStep fault b2 g (g.order * 100) cpre (initialGroupStatus g) st2 =
      ((gs2, none), st3))
    (cs : ComponentStatus) (e : String) (st4 : ClusterState)
    (herr : reconcileComponent fault b2 g c (g.order * 100) st3 = ((cs, some e), st4)) :
    ∃ stF, Reconcile fault st0 = (some e, stF) ∧
      cs.phase = phaseFailed ∧ cs.resourceRef = none ∧
      (∃ mp, cs.message = mp ++ e) ∧
      stF.bundle.status.phase = phaseFailed ∧
      stF.bundle.status.message = e ∧
      stF.bundle.status.groupStatuses = b2.status.groupStatuses ++
        [{ gs2 with
           phase := phaseFailed
           message := "Failed to deploy component " ++ c.name ++ ": " ++ e
           componentStatuses := gs2.componentStatuses ++ [cs] }] ∧
      stF.trace = st4.trace ++ [Event.bundleStatusUpdate] := by
  have hcls := rc_classify fault b2 g c (g.order * 100) st3
  rw [herr] at hcls
  rcases hcls with ⟨-, habs, -⟩ | ⟨e2, mp, he2, hph, href, hmsg⟩
  · simp at habs
  · have he : e = e2 := by simpa using he2
    subst he
    rw [Reconcile_fin fault st0 hfin, rAF_live fault st0.bundle st0 hlive hphase,
      reconcileMain_unfold, hsplit,
      groupsLoop_append fault pre (g :: post) (deployingInit st0.bundle) st0 b2 st2 hpre]
    simp only [groupsLoop, reconcileGroup]
    rw [hcsplit,
      componentsStep_append fault b2 g (g.order * 100) cpre (c :: cpost)
        (initialGroupStatus g) st2 gs2 st3 hcpre]
    simp only [componentsStep]
    rw [herr]
    dsimp only
    rw [updateStatusWithError_eqNone fault _ st4 e hsuf]
    refine ⟨_, rfl, hph, href, ⟨mp, hmsg⟩, rfl, rfl, ?_, rfl⟩
    simp [markFailed, appendGS]

/-- Witness for C2 at the concrete three-group bundle whose middle group
holds an unparseable component: the pass stops there and the bundle is
persisted as Failed with the parse error. -/
theorem c2_error_propagation_witness :
    ∃ stF, Reconcile noFault c2State = (some "invalid character", stF) ∧
      c2Rc.1.1.phase = phaseFailed ∧
      stF.bundle.status.phase = phaseFailed ∧
      stF.bundle.status.message = "invalid character" := by
  obtain ⟨stF, h1, h2, h3, h4, h5, h6, h7, h8⟩ :=
    c2_error_propagation noFault c2State (by decide) rfl (by decide) rfl
      [c2gFirst] [c2gLast] c2gFailing (by rfl)
      c2B2 c2St2 (by rfl)
      [c2cOk1] [c2cNever] badComponent (by rfl)
      c2Step.1.1 c2Step.2 (by rfl)
      c2Rc.1.1 "invalid character" c2Rc.2 (by rfl)
  exact ⟨stF, h1, h2, h5, h6⟩

/-- C3: re-reconciling an already-Deployed bundle with no spec changes
issues no additional create calls.  A first fault-free pass succeeds;
the second pass over its result succeeds again, its trace contains no
create operation, every component's object is probed (a get on its
resolved key) and replaced via an update stamping the stored object's
resource version, and the terminal bundle status is unchanged.  The
component keys are assumed pairwise distinct (distinct resources). -/
theorem c3_second_pass_idempotent (st0 : ClusterState)
    (hfin : appBundleFinalizer ∈ st0.bundle.finalizers)
    (hlive : st0.bundle.deletionTimestampIsZero = true)
    (hres : ∀ g ∈ st0.bundle.spec.groups, ∀ c ∈ g.components,
      (resolvedManifest? st0.bundle g (g.order * 100) c).isSome)
    (hdist : ((st0.bundle.spec.groups.map
        (fun g => g.components.map (resolvedKey st0.bundle g))).flatten).Nodup) :
    ∃ st1, Reconcile noFault st0 = (none, st1) ∧
    ∃ st2 d, Reconcile noFault st1 = (none, st2) ∧
      st2.bundle.status = st1.bundle.status ∧
      st2.trace = st1.trace ++ d ∧
      (∀ ev ∈ d, ∀ k, ev ≠ Event.createOp k) ∧
      (∀ g ∈ st0.bundle.spec.groups, ∀ c ∈ g.components,
        Event.getOp (resolvedKey st0.bundle g c) ∈ d ∧
        ∃ ex, lookupObj st1.objs (resolvedKey st0.bundle g c) = some ex ∧
          Event.updateOp (resolvedKey st0.bundle g c) ex.resourceVersion ∈ d) := by
  obtain ⟨st1, h1eq, hb1, h1keys, h1mono⟩ := Reconcile_noFault_success st0 hfin hlive hres
  have hfin1 : appBundleFinalizer ∈ st1.bundle.finalizers := by rw [hb1]; exact hfin
  have hlive1 : st1.bundle.deletionTimestampIsZero = true := by rw [hb1]; exact hlive
  have hphase1 : st1.bundle.status.phase ≠ "" := by
    rw [hb1]
    show phaseDeployed ≠ ""
    decide
  have hres1 : ∀ g ∈ st1.bundle.spec.groups, ∀ c ∈ g.components,
      (resolvedManifest? st1.bundle g (g.order * 100) c).isSome := by
    rw [hb1]
    exact fun g hg c hc => hres g hg c hc
  have hpres1 : ∀ g ∈ st1.bundle.spec.groups, ∀ c ∈ g.components,
      (lookupObj st1.objs (resolvedKey st1.bundle g c)).isSome := by
    rw [hb1]
    exact fun g hg c hc => h1keys g hg c hc
  have hdist1 : ((st1.bundle.spec.groups.map
      (fun g => g.components.map (resolvedKey st1.bundle g))).flatten).Nodup := by
    rw [hb1]
    exact hdist
  obtain ⟨st2, d, h2eq, h2tr, h2noc, h2mem⟩ :=
    Reconcile_noFault_present st1 hfin1 hlive1 hphase1 hres1 hpres1 hdist1
  obtain ⟨st2b, h2eqb, h2bun, -, -⟩ := Reconcile_noFault_success st1 hfin1 hlive1 hres1
  have hsame : st2b = st2 := by
    rw [h2eq] at h2eqb
    exact (congrArg Prod.snd h2eqb).symm
  subst hsame
  refine ⟨st1, h1eq, st2b, d, h2eq, ?_, h2tr, h2noc, ?_⟩
  · calc st2b.bundle.status = finalStatus st1.bundle := by rw [h2bun]
      _ = finalStatus st0.bundle := by
          rw [hb1]; exact finalStatus_idem st0.bundle
      _ = st1.bundle.status := by rw [hb1]
  · intro g hg c hc
    have hg1 : g ∈ st1.bundle.spec.groups := by rw [hb1]; exact hg
    have hkeyeq : resolvedKey st1.bundle g c = resolvedKey st0.bundle g c := by
      rw [hb1]
      exact resolvedKey_irrel st0.bundle _ g c
    obtain ⟨hget, ex, hex, hupd⟩ := h2mem g hg1 c hc
    rw [hkeyeq] at hget hex hupd
    exact ⟨hget, ex, hex, hupd⟩

/-- Witness for C3 at the test bundle: the second pass issues no create
and leaves the terminal status unchanged. -/
theorem c3_second_pass_idempotent_witness :
    ∃ st1, Reconcile noFault demoState = (none, st1) ∧
    ∃ st2 d, Reconcile noFault st1 = (none, st2) ∧
      st2.bundle.status = st1.bundle.status ∧
      st2.trace = st1.trace ++ d ∧
      (∀ ev ∈ d, ∀ k, ev ≠ Event.createOp k) ∧
      (∀ g ∈ demoState.bundle.spec.groups, ∀ c ∈ g.components,
        Event.getOp (resolvedKey demoState.bundle g c) ∈ d ∧
        ∃ ex, lookupObj st1.objs (resolvedKey demoState.bundle g c) = some ex ∧
          Event.updateOp (resolvedKey demoState.bundle g c) ex.resourceVersion ∈ d) :=
  c3_second_pass_idempotent demoState (by decide) rfl (by decide) (by decide)

end AppBundleOp
